import Mathlib

/-!
Verification of the moderation-and-template core of the Shee Discord bot.

The development shallowly embeds, in Lean, the code of
`src/services/gemini.service.ts` (API-key rotation and generation retry),
`src/services/template.service.ts` (template pools and the moderation
service), and `src/utils/cache.ts` (the counter cache used for spam
detection).  Time is modelled as natural-number milliseconds (JS
`Date.now()`), the relational tables as lists of rows, the Redis cache as
a partial map, and the upstream LLM as an oracle supplying one outcome
per attempt.
-/

/-! ## Key rotation (gemini.service.ts) -/

/-- RATE_LIMIT_DURATION_MS from gemini.service.ts: one minute, in ms. -/
def RATE_LIMIT_DURATION_MS : Nat := 60 * 1000

/-- MAX_REQUESTS_PER_MINUTE from gemini.service.ts. -/
def MAX_REQUESTS_PER_MINUTE : Nat := 15

/-- KeyUsageWindow from gemini.service.ts: the per-key sliding-window
timestamps and the manual-cooldown deadline. -/
structure KeyUsageWindow where
  timestamps : List Nat
  rateLimitedUntil : Nat
deriving Repr, DecidableEq

/-- cleanOldTimestamps: keep only timestamps from the last minute.  The
source computes oneMinuteAgo as now minus RATE_LIMIT_DURATION_MS (possibly
negative in JS) and keeps ts strictly greater than it; over the integers
this is the same as keeping ts with ts + RATE_LIMIT_DURATION_MS > now,
which avoids truncated natural subtraction. -/
def cleanOldTimestamps (now : Nat) (w : KeyUsageWindow) : KeyUsageWindow :=
  { w with timestamps :=
      w.timestamps.filter (fun ts => decide (now < ts + RATE_LIMIT_DURATION_MS)) }

/-- isKeyAvailable from gemini.service.ts.  The source first rejects a key
whose manual cooldown is still in the future, then prunes its window in
place and compares the pruned length with MAX_REQUESTS_PER_MINUTE; the
pruning persists in the map, so the function returns both the flag and the
window as it is left behind. -/
def isKeyAvailableStep (now : Nat) (w : KeyUsageWindow) : Bool × KeyUsageWindow :=
  if now < w.rateLimitedUntil then (false, w)
  else
    let w2 := cleanOldTimestamps now w
    (decide (w2.timestamps.length < MAX_REQUESTS_PER_MINUTE), w2)

/-- recordKeyUsage from gemini.service.ts: prune, then push the current
instant at the end of the window. -/
def recordKeyUsage (now : Nat) (w : KeyUsageWindow) : KeyUsageWindow :=
  let w2 := cleanOldTimestamps now w
  { w2 with timestamps := w2.timestamps ++ [now] }

/-- The in-memory state of GeminiService: the credential-pool size, the
round-robin cursor, and the per-key windows.  The source keeps the windows
in a Map keyed by index, populated for indices 0 .. numKeys-1; a total
function stands in for the map (all accesses in the source are taken mod
the pool size, hence in range). -/
structure GeminiState where
  numKeys : Nat
  currentKeyIndex : Nat
  keyUsageWindows : Nat → KeyUsageWindow

/-- The state at process start (initializeKeyTracking): cursor 0, every
window empty with no cooldown. -/
def freshGeminiState (numKeys : Nat) : GeminiState :=
  ⟨numKeys, 0, fun _ => ⟨[], 0⟩⟩

/-- The loop body of getNextApiKey: visit at most the given number of keys
starting at the cursor; an available key is used (its window recorded, the
cursor advanced) and its index returned; an unavailable key leaves behind
its pruned window and advances the cursor.  Fails with none when no key
was available in a full pass (the thrown all-keys-rate-limited error). -/
def getNextApiKeyAux (now : Nat) : Nat → GeminiState → Option Nat × GeminiState
  | 0, st => (none, st)
  | attempts + 1, st =>
    let i := st.currentKeyIndex
    let p := isKeyAvailableStep now (st.keyUsageWindows i)
    if p.1 then
      (some i,
        { st with
          keyUsageWindows := Function.update st.keyUsageWindows i (recordKeyUsage now p.2),
          currentKeyIndex := (i + 1) % st.numKeys })
    else
      getNextApiKeyAux now attempts
        { st with
          keyUsageWindows := Function.update st.keyUsageWindows i p.2,
          currentKeyIndex := (i + 1) % st.numKeys }

/-- getNextApiKey from gemini.service.ts: one round-robin pass bounded by
the pool size.  The returned index identifies the credential (the source
returns the key string at that index). -/
def getNextApiKey (now : Nat) (st : GeminiState) : Option Nat × GeminiState :=
  getNextApiKeyAux now st.numKeys st

/-- markKeyAsRateLimited from gemini.service.ts: set the manual cooldown
of one key to now + RATE_LIMIT_DURATION_MS. -/
def markKeyAsRateLimited (now : Nat) (keyIndex : Nat) (st : GeminiState) : GeminiState :=
  { st with
    keyUsageWindows :=
      Function.update st.keyUsageWindows keyIndex
        { st.keyUsageWindows keyIndex with rateLimitedUntil := now + RATE_LIMIT_DURATION_MS } }

/-- One upstream call outcome, as classified by the catch block of
generate in gemini.service.ts: a normal text response, an error whose
message contains 429 or quota (isRateLimitError true), or any other
error. -/
inductive UpstreamOutcome
  | ok (text : String)
  | rateLimit
  | fatal
deriving Repr, DecidableEq

/-- The errors generate can surface: the error thrown by getNextApiKey
when a full pass finds no available key (its message matches neither 429
nor quota, so the catch block rethrows it), an upstream rate-limit error,
any other upstream error, and the fallback error thrown when the loop
body never ran. -/
inductive GenError
  | allKeysExhausted
  | rateLimited
  | fatalUpstream
  | noRetries
deriving Repr, DecidableEq

/-- The observable result of one generate call: the returned text or the
propagated error, the number of upstream calls issued, and the final
rotation state. -/
structure GenRun where
  result : Except GenError String
  attempts : Nat
  state : GeminiState

/-- The retry loop of generate in gemini.service.ts, with the upstream
modelled as an oracle list of outcomes consumed one per call.  Each
iteration acquires a key, issues the call, and on a rate-limit error
marks the previously advanced key (the source computes currentKeyIndex
minus 1 plus the pool size, mod the pool size; written here with the
addition first so natural subtraction never truncates) and continues;
any other error, and a failure to acquire a key, propagates at once.
An exhausted oracle stands for a fatal upstream error. -/
def generateAux (now : Nat) : Nat → List UpstreamOutcome → Option GenError → GeminiState → GenRun
  | 0, _, lastError, st => ⟨.error (lastError.getD .noRetries), 0, st⟩
  | retriesLeft + 1, outcomes, _, st =>
    match getNextApiKey now st with
    | (none, st2) => ⟨.error .allKeysExhausted, 0, st2⟩
    | (some _, st2) =>
      match outcomes with
      | .ok t :: _ => ⟨.ok t, 1, st2⟩
      | .rateLimit :: rest =>
        let failedKeyIndex := (st2.currentKeyIndex + st2.numKeys - 1) % st2.numKeys
        let st3 := markKeyAsRateLimited now failedKeyIndex st2
        let r := generateAux now retriesLeft rest (some .rateLimited) st3
        ⟨r.result, r.attempts + 1, r.state⟩
      | .fatal :: _ => ⟨.error .fatalUpstream, 1, st2⟩
      | [] => ⟨.error .fatalUpstream, 1, st2⟩

/-- generate from gemini.service.ts: maxRetries is the number of
configured API keys (cfg.GEMINI_API_KEYS.length), and there is no delay
of any kind between attempts. -/
def generate (now : Nat) (outcomes : List UpstreamOutcome) (st : GeminiState) : GenRun :=
  generateAux now st.numKeys outcomes none st

/-- Run one acquisition per listed instant, requiring every acquisition to
succeed; used to state the exhaustion property of the key pool. -/
def acquireAll : List Nat → GeminiState → Option GeminiState
  | [], st => some st
  | t :: ts, st =>
    match getNextApiKey t st with
    | (some _, st2) => acquireAll ts st2
    | (none, _) => none

/-! ## Template pools (template.service.ts) -/

/-- LOW_TEMPLATE_THRESHOLD from template.service.ts. -/
def LOW_TEMPLATE_THRESHOLD : Nat := 10

/-- USAGE_THRESHOLD from template.service.ts. -/
def USAGE_THRESHOLD : Nat := 5

/-- BATCH_SIZE from template.service.ts. -/
def BATCH_SIZE : Nat := 10

/-- MoodType from template.service.ts. -/
inductive MoodType
  | motivational
  | chill
  | energetic
deriving Repr, DecidableEq

/-- ViolationType from template.service.ts. -/
inductive ViolationType
  | spam
  | badword
  | link
deriving Repr, DecidableEq

/-- A row of welcome_templates: id (serial primary key), content,
used_count (default 0, not null) and the nullable last_used_at. -/
structure WelcomeTemplate where
  id : Nat
  content : String
  usedCount : Nat
  lastUsedAt : Option Nat
deriving Repr, DecidableEq

/-- A row of morning_message_templates: id, content, nullable mood_tag,
used_count and nullable last_used_at. -/
structure MorningMessageTemplate where
  id : Nat
  content : String
  moodTag : Option MoodType
  usedCount : Nat
  lastUsedAt : Option Nat
deriving Repr, DecidableEq

/-- A row of warning_templates as the service uses it: id, type, content,
severity, used_count and nullable last_used_at (the service orders by and
updates used_count and last_used_at even though the checked-in schema
omits those two columns for this table). -/
structure WarningTemplate where
  id : Nat
  type : ViolationType
  content : String
  severity : String
  usedCount : Nat
  lastUsedAt : Option Nat
deriving Repr, DecidableEq

/-- PostgreSQL comparison of two nullable timestamps under ORDER BY ...
ASC: NULLs sort last for ascending order, so a non-null value precedes
null. -/
def pgAscNullsLastLE : Option Nat → Option Nat → Bool
  | none, none => true
  | none, some _ => false
  | some _, none => true
  | some a, some b => decide (a ≤ b)

/-- Strict version of the same comparison. -/
def pgAscNullsLastLT : Option Nat → Option Nat → Bool
  | none, _ => false
  | some _, none => true
  | some a, some b => decide (a < b)

/-- The sort key of the three least-used queries: primary ascending
used_count, tie-break ascending last_used_at (NULLs last under
PostgreSQL ASC). -/
def templateKeyLE (a b : Nat × Option Nat) : Bool :=
  decide (a.1 < b.1) || (decide (a.1 = b.1) && pgAscNullsLastLE a.2 b.2)

/-- Strict version of the sort key. -/
def templateKeyLT (a b : Nat × Option Nat) : Bool :=
  decide (a.1 < b.1) || (decide (a.1 = b.1) && pgAscNullsLastLT a.2 b.2)

/-- A SELECT ... ORDER BY used_count ASC, last_used_at ASC LIMIT 1 over a
list of rows: the first row minimal for the sort key.  PostgreSQL leaves
the choice among rows with fully equal keys unspecified; taking the first
such row in table order is the determinization used throughout. -/
def selectLeastUsed {α : Type} (key : α → Nat × Option Nat) (rows : List α) : Option α :=
  match rows with
  | [] => none
  | x :: xs => some (xs.foldl (fun best y => if templateKeyLT (key y) (key best) then y else best) x)

/-- The sort key of a welcome-template row. -/
def welcomeKey (t : WelcomeTemplate) : Nat × Option Nat := (t.usedCount, t.lastUsedAt)

/-- The sort key of a morning-template row. -/
def morningKey (t : MorningMessageTemplate) : Nat × Option Nat := (t.usedCount, t.lastUsedAt)

/-- The sort key of a warning-template row. -/
def warningKey (t : WarningTemplate) : Nat × Option Nat := (t.usedCount, t.lastUsedAt)

/-- getLeastUsedTemplate from template.service.ts (none models the thrown
no-welcome-templates-available error). -/
def getLeastUsedTemplate (pool : List WelcomeTemplate) : Option WelcomeTemplate :=
  selectLeastUsed welcomeKey pool

/-- markTemplateAsUsed from template.service.ts: UPDATE the row with the
given id, incrementing used_count and setting last_used_at to now. -/
def markTemplateAsUsed (templateId : Nat) (now : Nat) (pool : List WelcomeTemplate) :
    List WelcomeTemplate :=
  pool.map fun t =>
    if t.id = templateId then { t with usedCount := t.usedCount + 1, lastUsedAt := some now }
    else t

/-- The allocation performed by getWelcomeTemplate: fetch the least-used
row, then mark it used; returns the row as fetched (before the update)
together with the updated table.  The replenishment check that
getWelcomeTemplate runs first only fires a background generation and
changes no welcome row synchronously. -/
def allocateWelcome (now : Nat) (pool : List WelcomeTemplate) :
    Option (WelcomeTemplate × List WelcomeTemplate) :=
  match getLeastUsedTemplate pool with
  | none => none
  | some t => some (t, markTemplateAsUsed t.id now pool)

/-- getLeastUsedMorningTemplate from template.service.ts: optional WHERE
on mood_tag, then the same ORDER BY ... LIMIT 1. -/
def getLeastUsedMorningTemplate (mood : Option MoodType)
    (pool : List MorningMessageTemplate) : Option MorningMessageTemplate :=
  match mood with
  | some m => selectLeastUsed morningKey (pool.filter (fun t => decide (t.moodTag = some m)))
  | none => selectLeastUsed morningKey pool

/-- markMorningTemplateAsUsed from template.service.ts. -/
def markMorningTemplateAsUsed (templateId : Nat) (now : Nat)
    (pool : List MorningMessageTemplate) : List MorningMessageTemplate :=
  pool.map fun t =>
    if t.id = templateId then { t with usedCount := t.usedCount + 1, lastUsedAt := some now }
    else t

/-- getLeastUsedWarningTemplate from template.service.ts: WHERE type = t,
then the same ORDER BY ... LIMIT 1. -/
def getLeastUsedWarningTemplate (ty : ViolationType)
    (pool : List WarningTemplate) : Option WarningTemplate :=
  selectLeastUsed warningKey (pool.filter (fun t => decide (t.type = ty)))

/-- The template tables together with the single in-memory isGenerating
flag of the TemplateService singleton.  The flag is one boolean on the
service instance, shared by the welcome, morning and warning generation
paths; nextId models the serial primary-key sequence. -/
structure TemplateServiceState where
  isGenerating : Bool
  welcomeTemplates : List WelcomeTemplate
  morningMessageTemplates : List MorningMessageTemplate
  warningTemplates : List WarningTemplate
  nextId : Nat

/-- getAvailableTemplateCount from template.service.ts: welcome templates
with used_count < USAGE_THRESHOLD. -/
def getAvailableTemplateCount (st : TemplateServiceState) : Nat :=
  (st.welcomeTemplates.filter (fun t => decide (t.usedCount < USAGE_THRESHOLD))).length

/-- getAvailableMorningTemplateCount from template.service.ts: morning
templates with used_count < USAGE_THRESHOLD, and mood_tag equal to the
mood when one is given. -/
def getAvailableMorningTemplateCount (mood : Option MoodType) (st : TemplateServiceState) : Nat :=
  match mood with
  | some m =>
    (st.morningMessageTemplates.filter
      (fun t => decide (t.usedCount < USAGE_THRESHOLD) && decide (t.moodTag = some m))).length
  | none =>
    (st.morningMessageTemplates.filter (fun t => decide (t.usedCount < USAGE_THRESHOLD))).length

/-- getAvailableWarningTemplateCount from template.service.ts: its WHERE
clause is only type = t — unlike the welcome and morning counters it does
not restrict used_count. -/
def getAvailableWarningTemplateCount (ty : ViolationType) (st : TemplateServiceState) : Nat :=
  (st.warningTemplates.filter (fun t => decide (t.type = ty))).length

/-- Follows the spec's words ("counts templates with used_count <
USAGE_THRESHOLD (default 5) matching selector") for the warning pool, to
be compared with getAvailableWarningTemplateCount taken from the source. -/
def specWarningAvailableCount (ty : ViolationType) (st : TemplateServiceState) : Nat :=
  (st.warningTemplates.filter
    (fun t => decide (t.usedCount < USAGE_THRESHOLD) && decide (t.type = ty))).length

/-- Follows the spec's words for the welcome pool, to be compared with
getAvailableTemplateCount taken from the source. -/
def specWelcomeAvailableCount (st : TemplateServiceState) : Nat :=
  (st.welcomeTemplates.filter (fun t => decide (t.usedCount < USAGE_THRESHOLD))).length

/-- The trigger decision of checkAndGenerateTemplatesIfNeeded: true when
the call fires the background generateWelcomeTemplates(20).  The source
returns early while isGenerating is set, and otherwise fires exactly when
the available count is below LOW_TEMPLATE_THRESHOLD; the fired task is
not awaited. -/
def checkAndGenerateTemplatesIfNeeded (st : TemplateServiceState) : Bool :=
  !st.isGenerating && decide (getAvailableTemplateCount st < LOW_TEMPLATE_THRESHOLD)

/-- The trigger decision of checkAndGenerateMorningTemplatesIfNeeded. -/
def checkAndGenerateMorningTemplatesIfNeeded (mood : Option MoodType)
    (st : TemplateServiceState) : Bool :=
  !st.isGenerating && decide (getAvailableMorningTemplateCount mood st < LOW_TEMPLATE_THRESHOLD)

/-- The trigger decision of checkAndGenerateWarningTemplatesIfNeeded. -/
def checkAndGenerateWarningTemplatesIfNeeded (ty : ViolationType)
    (st : TemplateServiceState) : Bool :=
  !st.isGenerating && decide (getAvailableWarningTemplateCount ty st < LOW_TEMPLATE_THRESHOLD)

/-- Append freshly generated welcome rows: each inserted with used_count 0
and NULL last_used_at, ids drawn from the serial sequence. -/
def insertWelcomeRows (contents : List String) (st : TemplateServiceState) :
    TemplateServiceState :=
  { st with
    welcomeTemplates :=
      st.welcomeTemplates ++
        contents.enum.map (fun kc => ⟨st.nextId + kc.1, kc.2, 0, none⟩),
    nextId := st.nextId + contents.length }

/-- The batch loop of generateWelcomeTemplates, with the per-batch calls
to geminiService.generateWelcomeTemplates modelled as an oracle giving
each batch either its list of contents or a failure (none; an exhausted
oracle also reads as a failure).  A failing first batch rethrows out of
the loop; a failing later batch is logged and skipped.  Returns false
when the loop threw. -/
def generateWelcomeLoop : Nat → Nat → List (Option (List String)) → TemplateServiceState →
    Bool × TemplateServiceState
  | 0, _, _, st => (true, st)
  | remaining + 1, i, outcomes, st =>
    match outcomes.headD none with
    | some contents => generateWelcomeLoop remaining (i + 1) outcomes.tail (insertWelcomeRows contents st)
    | none =>
      if i = 0 then (false, st)
      else generateWelcomeLoop remaining (i + 1) outcomes.tail st

/-- generateWelcomeTemplates from template.service.ts: skip (returning
normally) while isGenerating is set; otherwise set the flag, run
ceil(count / BATCH_SIZE) batches, and clear the flag on every exit —
normal completion, first-batch failure (which rethrows) and any other
exception all pass through the finally block.  The boolean result is
false when the call threw. -/
def generateWelcomeTemplates (count : Nat) (outcomes : List (Option (List String)))
    (st : TemplateServiceState) : Bool × TemplateServiceState :=
  if st.isGenerating then (true, st)
  else
    let batches := (count + BATCH_SIZE - 1) / BATCH_SIZE
    let r := generateWelcomeLoop batches 0 outcomes { st with isGenerating := true }
    (r.1, { r.2 with isGenerating := false })

/-- The allocation performed by getMorningMessageTemplate: the
replenishment check fires only a background task, then the least-used
matching row is fetched — the source throws when none matches, with no
fallback path — and marked used. -/
def getMorningMessageTemplate (mood : Option MoodType) (now : Nat)
    (st : TemplateServiceState) :
    Except String (MorningMessageTemplate × TemplateServiceState) :=
  match getLeastUsedMorningTemplate mood st.morningMessageTemplates with
  | none => .error "No morning templates available"
  | some t =>
    .ok (t, { st with
      morningMessageTemplates := markMorningTemplateAsUsed t.id now st.morningMessageTemplates })

/-- The allocation performed by getWarningTemplate: least-used row of the
requested type — the source throws when none exists — then marked used. -/
def getWarningTemplate (ty : ViolationType) (now : Nat) (st : TemplateServiceState) :
    Except String (WarningTemplate × TemplateServiceState) :=
  match getLeastUsedWarningTemplate ty st.warningTemplates with
  | none => .error "No warning templates available"
  | some t =>
    .ok (t, { st with
      warningTemplates := st.warningTemplates.map fun u =>
        if u.id = t.id then { u with usedCount := u.usedCount + 1, lastUsedAt := some now }
        else u })

/-! ## Moderation (ModerationService in template.service.ts) -/

/-- MODERATION_CONFIG.warningThreshold. -/
def warningThreshold : Nat := 3

/-- MODERATION_CONFIG.timeoutDurationMs: 10 minutes. -/
def timeoutDurationMs : Nat := 10 * 60 * 1000

/-- MODERATION_CONFIG.warningWindowDays converted to milliseconds, as in
getWarningWindowDate. -/
def warningWindowMs : Nat := 7 * 24 * 60 * 60 * 1000

/-- A row of user_warnings. -/
structure UserWarning where
  userId : String
  guildId : String
  warnedBy : String
  reason : String
  severity : Nat
  createdAt : Nat
deriving Repr, DecidableEq

/-- getWarningWindowDate: now minus the 7-day window.  JS can produce a
negative instant here; since the window date is only ever used on the
left of a ≥ against a non-negative created_at, truncated natural
subtraction gives the same comparison results. -/
def getWarningWindowDate (now : Nat) : Nat := now - warningWindowMs

/-- getWarningCount from template.service.ts: rows of user_warnings for
this user and guild, warned_by = shee, created_at within the trailing
window. -/
def getWarningCount (ledger : List UserWarning) (userId guildId : String) (now : Nat) : Nat :=
  (ledger.filter fun r =>
    decide (r.userId = userId) && decide (r.guildId = guildId) &&
    decide (r.warnedBy = "shee") && decide (getWarningWindowDate now ≤ r.createdAt)).length

/-- shouldEscalateToHeez: the warning count and the threshold test. -/
def shouldEscalateToHeez (ledger : List UserWarning) (userId guildId : String) (now : Nat) :
    Bool × Nat :=
  let warningCount := getWarningCount ledger userId guildId now
  (decide (warningCount ≥ warningThreshold), warningCount)

/-- recordWarning: append a severity-1 row with warned_by = shee. -/
def recordWarning (ledger : List UserWarning) (userId guildId reason : String) (now : Nat) :
    List UserWarning :=
  ledger ++ [⟨userId, guildId, "shee", reason, 1, now⟩]

/-- recordEscalation: append a severity-3 row with warned_by = heez. -/
def recordEscalation (ledger : List UserWarning) (userId guildId reason : String) (now : Nat) :
    List UserWarning :=
  ledger ++ [⟨userId, guildId, "heez", "Escalated from Shee: " ++ reason, 3, now⟩]

/-- The observable effect of one violation handler: the offending message
is deleted, a timeout of the given duration is applied when escalating, a
soft warning message is sent when not, and the ledger is left as given.
The soft-warning send draws its text from the warning-template pool
(getWarningTemplate); that table is modelled separately and never touches
user_warnings. -/
structure ModerationOutcome where
  messageDeleted : Bool
  timeoutMs : Option Nat
  softWarningSent : Bool
  ledger : List UserWarning
deriving Repr, DecidableEq

/-- handleSpam from template.service.ts: delete, then escalate (timeout,
notification, escalation row) when the shee-warning count reaches the
threshold, otherwise soft-warn and record a severity-1 row. -/
def handleSpam (ledger : List UserWarning) (userId guildId : String) (now : Nat) :
    ModerationOutcome :=
  let p := shouldEscalateToHeez ledger userId guildId now
  if p.1 then ⟨true, some timeoutDurationMs, false, recordEscalation ledger userId guildId "spam" now⟩
  else ⟨true, none, true, recordWarning ledger userId guildId "spam" now⟩

/-- handleBadword from template.service.ts: same shape as handleSpam with
reason badword. -/
def handleBadword (ledger : List UserWarning) (userId guildId : String) (now : Nat) :
    ModerationOutcome :=
  let p := shouldEscalateToHeez ledger userId guildId now
  if p.1 then ⟨true, some timeoutDurationMs, false, recordEscalation ledger userId guildId "badword" now⟩
  else ⟨true, none, true, recordWarning ledger userId guildId "badword" now⟩

/-- handleUnauthorizedLink from template.service.ts: delete the message
and send a soft warning; no warning-count check, no timeout, and no
insert into user_warnings on any path. -/
def handleUnauthorizedLink (ledger : List UserWarning) (userId guildId : String) (now : Nat) :
    ModerationOutcome :=
  let _ := userId
  let _ := guildId
  let _ := now
  ⟨true, none, true, ledger⟩

/-! ## Counter cache (utils/cache.ts) and spam detection -/

/-- SPAM_CONFIG.messageLimit. -/
def messageLimit : Nat := 5

/-- SPAM_CONFIG.timeWindowSeconds. -/
def timeWindowSeconds : Nat := 10

/-- A live Redis entry: the integer value of the key and its expiry
instant in ms (none when the key has no TTL). -/
structure RedisEntry where
  value : Nat
  expiresAt : Option Nat
deriving Repr, DecidableEq

/-- The Redis keyspace: a partial map from keys to entries. -/
def RedisState : Type := String → Option RedisEntry

/-- A key is live when it has an entry whose expiry, if any, lies in the
future; at its expiry instant Redis treats the key as gone. -/
def redisLive (now : Nat) (e : RedisEntry) : Bool :=
  match e.expiresAt with
  | none => true
  | some x => decide (now < x)

/-- Redis INCR: a missing or expired key is created at value 1 with no
TTL; a live key is incremented in place, keeping its TTL.  Returns the
resulting value. -/
def redisIncr (key : String) (now : Nat) (r : RedisState) : Nat × RedisState :=
  match r key with
  | some e =>
    if redisLive now e then
      (e.value + 1, Function.update r key (some ⟨e.value + 1, e.expiresAt⟩))
    else (1, Function.update r key (some ⟨1, none⟩))
  | none => (1, Function.update r key (some ⟨1, none⟩))

/-- Redis EXPIRE with a TTL in seconds. -/
def redisExpire (key : String) (ttlSeconds : Nat) (now : Nat) (r : RedisState) : RedisState :=
  match r key with
  | some e =>
    if redisLive now e then
      Function.update r key (some ⟨e.value, some (now + ttlSeconds * 1000)⟩)
    else r
  | none => r

/-- cache.increment from utils/cache.ts: INCR, then EXPIRE only when a
TTL was supplied (0 models the absent/falsy ttlSeconds) and this was the
first increment, that is the returned count is 1. -/
def cacheIncrement (key : String) (ttlSeconds : Nat) (now : Nat) (r : RedisState) :
    Nat × RedisState :=
  let p := redisIncr key now r
  if ttlSeconds ≠ 0 ∧ p.1 = 1 then (p.1, redisExpire key ttlSeconds now p.2)
  else p

/-- The spam-counter cache key of checkSpam. -/
def spamCacheKey (guildId userId : String) : String :=
  "spam:" ++ guildId ++ ":" ++ userId

/-- checkSpam from template.service.ts: increment the per-(guild, user)
counter with the window as TTL and flag spam when the count exceeds
messageLimit. -/
def checkSpam (guildId userId : String) (now : Nat) (r : RedisState) : Bool × RedisState :=
  let p := cacheIncrement (spamCacheKey guildId userId) timeWindowSeconds now r
  (decide (p.1 > messageLimit), p.2)

/-- Run checkSpam once per listed instant, collecting the flags. -/
def runCheckSpam (guildId userId : String) : List Nat → RedisState → List Bool × RedisState
  | [], r => ([], r)
  | t :: ts, r =>
    let p := checkSpam guildId userId t r
    let q := runCheckSpam guildId userId ts p.2
    (p.1 :: q.1, q.2)

/-! ## Auxiliary notions used by the statements and proofs -/

/-- Follows the spec's words for the morning pool ("counts templates with
used_count < USAGE_THRESHOLD (default 5) matching selector"), to be
compared with getAvailableMorningTemplateCount taken from the source. -/
def specMorningAvailableCount (mood : Option MoodType) (st : TemplateServiceState) : Nat :=
  (st.morningMessageTemplates.filter
    (fun t => decide (t.usedCount < USAGE_THRESHOLD) &&
      match mood with
      | some m => decide (t.moodTag = some m)
      | none => true)).length

/-- How many of the first m round-robin acquisitions land on key j in a
pool of K keys: the count of i < m with i mod K = j, in closed form. -/
def rrCount (K m j : Nat) : Nat :=
  m / K + if j < m % K then 1 else 0

/-- The invariant of a burst of m successful acquisitions, all at
instants inside one window [lo, hi]: the cursor has advanced m times,
key j holds exactly its round-robin share of timestamps, every recorded
instant lies in the burst interval, and no manual cooldown was ever
set. -/
structure BurstInv (K m lo hi : Nat) (st : GeminiState) : Prop where
  nk : st.numKeys = K
  cursor : st.currentKeyIndex = m % K
  len : ∀ j < K, (st.keyUsageWindows j).timestamps.length = rrCount K m j
  mem : ∀ j < K, ∀ x ∈ (st.keyUsageWindows j).timestamps, lo ≤ x ∧ x ≤ hi
  cooldown : ∀ j < K, (st.keyUsageWindows j).rateLimitedUntil = 0

/-- The rotation state after the first i attempts of a generate call whose
every attempt hits an upstream rate limit, starting from the fresh state:
keys below i carry one timestamp and a fresh cooldown, the rest are
untouched, and the cursor has advanced i times. -/
def rlBurstState (K i now : Nat) : GeminiState :=
  ⟨K, i % K,
    fun j => if j < i then ⟨[now], now + RATE_LIMIT_DURATION_MS⟩ else ⟨[], 0⟩⟩

/-! ## Helper lemmas -/

theorem handleSpam_escalates (ledger : List UserWarning) (u g : String) (now : Nat)
    (h : warningThreshold ≤ getWarningCount ledger u g now) :
    handleSpam ledger u g now =
      ⟨true, some timeoutDurationMs, false, recordEscalation ledger u g "spam" now⟩ := by
  have hb : decide (getWarningCount ledger u g now ≥ warningThreshold) = true := decide_eq_true h
  simp [handleSpam, shouldEscalateToHeez, hb]

theorem handleBadword_escalates (ledger : List UserWarning) (u g : String) (now : Nat)
    (h : warningThreshold ≤ getWarningCount ledger u g now) :
    handleBadword ledger u g now =
      ⟨true, some timeoutDurationMs, false, recordEscalation ledger u g "badword" now⟩ := by
  have hb : decide (getWarningCount ledger u g now ≥ warningThreshold) = true := decide_eq_true h
  simp [handleBadword, shouldEscalateToHeez, hb]

theorem handleSpam_soft (ledger : List UserWarning) (u g : String) (now : Nat)
    (h : getWarningCount ledger u g now < warningThreshold) :
    handleSpam ledger u g now = ⟨true, none, true, recordWarning ledger u g "spam" now⟩ := by
  have hb : decide (getWarningCount ledger u g now ≥ warningThreshold) = false := by
    simp [decide_eq_false_iff_not]
    omega
  simp [handleSpam, shouldEscalateToHeez, hb]

theorem handleBadword_soft (ledger : List UserWarning) (u g : String) (now : Nat)
    (h : getWarningCount ledger u g now < warningThreshold) :
    handleBadword ledger u g now = ⟨true, none, true, recordWarning ledger u g "badword" now⟩ := by
  have hb : decide (getWarningCount ledger u g now ≥ warningThreshold) = false := by
    simp [decide_eq_false_iff_not]
    omega
  simp [handleBadword, shouldEscalateToHeez, hb]

theorem getWarningCount_append_heez (ledger : List UserWarning) (u g reason : String)
    (now : Nat) (u' g' : String) (t : Nat) :
    getWarningCount (recordEscalation ledger u g reason now) u' g' t =
      getWarningCount ledger u' g' t := by
  have hne : ("heez" : String) ≠ "shee" := by decide
  simp [getWarningCount, recordEscalation, List.filter_append, hne]

/-! ## C1 — escalation threshold boundary -/

/-- C1, counterexample.  A user with exactly 2 prior soft warnings inside
the trailing window who commits a 3rd badword violation is NOT escalated:
handleBadword applies no timeout, sends a soft warning and appends a third
severity-1 shee row, because shouldEscalateToHeez requires the count to
reach 3. -/
theorem escalation_threshold_counterexample :
    getWarningCount
        [⟨"u", "g", "shee", "spam", 1, 100⟩, ⟨"u", "g", "shee", "badword", 1, 200⟩]
        "u" "g" 300 = 2 ∧
    (handleBadword
        [⟨"u", "g", "shee", "spam", 1, 100⟩, ⟨"u", "g", "shee", "badword", 1, 200⟩]
        "u" "g" 300).timeoutMs = none ∧
    (handleBadword
        [⟨"u", "g", "shee", "spam", 1, 100⟩, ⟨"u", "g", "shee", "badword", 1, 200⟩]
        "u" "g" 300).softWarningSent = true ∧
    (handleBadword
        [⟨"u", "g", "shee", "spam", 1, 100⟩, ⟨"u", "g", "shee", "badword", 1, 200⟩]
        "u" "g" 300).ledger =
      [⟨"u", "g", "shee", "spam", 1, 100⟩, ⟨"u", "g", "shee", "badword", 1, 200⟩,
        ⟨"u", "g", "shee", "badword", 1, 300⟩] := by
  decide

/-- C1, amended.  A user with exactly 2 prior soft warnings in the
trailing window is soft-warned (not escalated) on the next spam or
badword violation, receiving a third severity-1 shee row; escalation (the
10-minute timeout and a severity-3 heez row) happens exactly once the
shee-warning count inside the window reaches WARNING_THRESHOLD = 3; and
warnings older than the trailing window contribute 0 to the count, so a
user whose warnings have all aged out is soft-warned. -/
theorem escalation_threshold_amended (ledger : List UserWarning) (u g : String) (now : Nat) :
    (getWarningCount ledger u g now = 2 →
      handleSpam ledger u g now = ⟨true, none, true, recordWarning ledger u g "spam" now⟩ ∧
      handleBadword ledger u g now = ⟨true, none, true, recordWarning ledger u g "badword" now⟩) ∧
    (warningThreshold ≤ getWarningCount ledger u g now →
      handleSpam ledger u g now =
        ⟨true, some timeoutDurationMs, false, recordEscalation ledger u g "spam" now⟩ ∧
      handleBadword ledger u g now =
        ⟨true, some timeoutDurationMs, false, recordEscalation ledger u g "badword" now⟩) ∧
    ((∀ r ∈ ledger, r.userId = u → r.guildId = g → r.warnedBy = "shee" →
        r.createdAt + warningWindowMs < now) →
      getWarningCount ledger u g now = 0 ∧
      handleSpam ledger u g now = ⟨true, none, true, recordWarning ledger u g "spam" now⟩ ∧
      handleBadword ledger u g now = ⟨true, none, true, recordWarning ledger u g "badword" now⟩) := by
  refine ⟨fun h2 => ?_, fun h3 => ?_, fun hold => ?_⟩
  · exact ⟨handleSpam_soft ledger u g now (by rw [h2]; decide),
      handleBadword_soft ledger u g now (by rw [h2]; decide)⟩
  · exact ⟨handleSpam_escalates ledger u g now h3, handleBadword_escalates ledger u g now h3⟩
  · have hzero : getWarningCount ledger u g now = 0 := by
      have hnil : (ledger.filter fun r =>
          decide (r.userId = u) && decide (r.guildId = g) &&
          decide (r.warnedBy = "shee") && decide (getWarningWindowDate now ≤ r.createdAt)) = [] := by
        rw [List.filter_eq_nil_iff]
        intro r hr
        by_cases hu : r.userId = u
        · by_cases hg : r.guildId = g
          · by_cases hw : r.warnedBy = "shee"
            · have hc := hold r hr hu hg hw
              have : ¬ (getWarningWindowDate now ≤ r.createdAt) := by
                simp only [getWarningWindowDate]
                omega
              simp [hu, hg, hw, this]
            · simp [hw]
          · simp [hg]
        · simp [hu]
      simp [getWarningCount, hnil]
    exact ⟨hzero, handleSpam_soft ledger u g now (by rw [hzero]; decide),
      handleBadword_soft ledger u g now (by rw [hzero]; decide)⟩

/-- C1, witness for the amended theorem: a ledger with 2 in-window
warnings is soft-warned, one with 3 is escalated, and one whose single
warning aged out counts 0. -/
theorem escalation_threshold_amended_witness :
    (handleBadword
        [⟨"u", "g", "shee", "spam", 1, 100⟩, ⟨"u", "g", "shee", "badword", 1, 200⟩]
        "u" "g" 300).timeoutMs = none ∧
    (handleSpam
        [⟨"u", "g", "shee", "spam", 1, 100⟩, ⟨"u", "g", "shee", "spam", 1, 150⟩,
          ⟨"u", "g", "shee", "badword", 1, 200⟩] "u" "g" 300).timeoutMs =
      some timeoutDurationMs ∧
    getWarningCount [⟨"u", "g", "shee", "spam", 1, 0⟩] "u" "g" 604800001 = 0 := by
  have h1 := (escalation_threshold_amended
    [⟨"u", "g", "shee", "spam", 1, 100⟩, ⟨"u", "g", "shee", "badword", 1, 200⟩]
    "u" "g" 300).1 (by decide)
  have h2 := (escalation_threshold_amended
    [⟨"u", "g", "shee", "spam", 1, 100⟩, ⟨"u", "g", "shee", "spam", 1, 150⟩,
      ⟨"u", "g", "shee", "badword", 1, 200⟩] "u" "g" 300).2.1 (by decide)
  have h3 := (escalation_threshold_amended
    [⟨"u", "g", "shee", "spam", 1, 0⟩] "u" "g" 604800001).2.2 (by decide)
  refine ⟨?_, ?_, h3.1⟩
  · rw [h1.2]
  · rw [h2.1]

/-! ## C7 — link-violation asymmetry -/

/-- C7.  Handling an unauthorized-link violation deletes the message and
sends a soft warning only: no timeout is applied and the user_warnings
ledger is left untouched — so any number of link violations leaves every
user's escalation count unchanged at every instant. -/
theorem link_violation_frame (ledger : List UserWarning) (u g : String) (now : Nat) :
    (handleUnauthorizedLink ledger u g now).messageDeleted = true ∧
    (handleUnauthorizedLink ledger u g now).timeoutMs = none ∧
    (handleUnauthorizedLink ledger u g now).softWarningSent = true ∧
    (handleUnauthorizedLink ledger u g now).ledger = ledger ∧
    (∀ u' g' t, getWarningCount (handleUnauthorizedLink ledger u g now).ledger u' g' t =
      getWarningCount ledger u' g' t) ∧
    (∀ events : List (String × String × Nat),
      events.foldl (fun acc e => (handleUnauthorizedLink acc e.1 e.2.1 e.2.2).ledger) ledger =
        ledger) := by
  refine ⟨rfl, rfl, rfl, rfl, fun _ _ _ => rfl, fun events => ?_⟩
  induction events generalizing ledger with
  | nil => rfl
  | cons e es ih => exact ih ledger

/-! ## C10 — escalation does not consume the warning count -/

/-- C10.  Once the in-window shee-warning count of a (user, guild) has
reached the threshold, a spam or badword violation escalates (10-minute
timeout, severity-3 heez row); the appended heez row is excluded by
getWarningCount at every instant, and the escalation path writes no shee
row and removes nothing, so the count is unchanged and the immediately
following violation escalates again. -/
theorem repeated_escalation_above_threshold (ledger : List UserWarning) (u g : String)
    (now : Nat) (h : warningThreshold ≤ getWarningCount ledger u g now) :
    handleSpam ledger u g now =
      ⟨true, some timeoutDurationMs, false, recordEscalation ledger u g "spam" now⟩ ∧
    handleBadword ledger u g now =
      ⟨true, some timeoutDurationMs, false, recordEscalation ledger u g "badword" now⟩ ∧
    (∀ reason u' g' t, getWarningCount (recordEscalation ledger u g reason now) u' g' t =
      getWarningCount ledger u' g' t) ∧
    (handleBadword (handleSpam ledger u g now).ledger u g now).timeoutMs =
      some timeoutDurationMs ∧
    (handleSpam (handleBadword ledger u g now).ledger u g now).timeoutMs =
      some timeoutDurationMs := by
  have hs := handleSpam_escalates ledger u g now h
  have hbw := handleBadword_escalates ledger u g now h
  have hinv : ∀ reason u' g' t,
      getWarningCount (recordEscalation ledger u g reason now) u' g' t =
        getWarningCount ledger u' g' t :=
    fun reason u' g' t => getWarningCount_append_heez ledger u g reason now u' g' t
  refine ⟨hs, hbw, hinv, ?_, ?_⟩
  · rw [hs]
    have h2 : warningThreshold ≤
        getWarningCount (recordEscalation ledger u g "spam" now) u g now := by
      rw [hinv]; exact h
    rw [handleBadword_escalates _ u g now h2]
  · rw [hbw]
    have h2 : warningThreshold ≤
        getWarningCount (recordEscalation ledger u g "badword" now) u g now := by
      rw [hinv]; exact h
    rw [handleSpam_escalates _ u g now h2]

/-- C10, witness: a ledger with three in-window shee warnings escalates,
and the next violation escalates again. -/
theorem repeated_escalation_above_threshold_witness :
    (handleSpam
        [⟨"u", "g", "shee", "spam", 1, 100⟩, ⟨"u", "g", "shee", "spam", 1, 150⟩,
          ⟨"u", "g", "shee", "badword", 1, 200⟩] "u" "g" 300).timeoutMs =
      some timeoutDurationMs ∧
    (handleBadword
        (handleSpam
          [⟨"u", "g", "shee", "spam", 1, 100⟩, ⟨"u", "g", "shee", "spam", 1, 150⟩,
            ⟨"u", "g", "shee", "badword", 1, 200⟩] "u" "g" 300).ledger
        "u" "g" 300).timeoutMs = some timeoutDurationMs := by
  have h := repeated_escalation_above_threshold
    [⟨"u", "g", "shee", "spam", 1, 100⟩, ⟨"u", "g", "shee", "spam", 1, 150⟩,
      ⟨"u", "g", "shee", "badword", 1, 200⟩] "u" "g" 300 (by decide)
  exact ⟨by rw [h.1], h.2.2.2.1⟩

/-! ## C3 — replenishment trigger -/

/-- C3, counterexample.  The warning-pool counter ignores used_count: a
state holding ten spam warning templates each used 100 times counts 10,
so no replenishment fires even though the count taken per the spec's
words (used_count < USAGE_THRESHOLD) is 0; and the single isGenerating
flag is service-wide, so while it is held (for example by a welcome run)
the morning trigger is a no-op even on an empty morning pool. -/
theorem replenishment_trigger_counterexample :
    checkAndGenerateWarningTemplatesIfNeeded .spam
        ⟨false, [], [],
          (List.range 10).map (fun n => ⟨n, .spam, "x", "low", 100, none⟩), 50⟩ = false ∧
    specWarningAvailableCount .spam
        ⟨false, [], [],
          (List.range 10).map (fun n => ⟨n, .spam, "x", "low", 100, none⟩), 50⟩ = 0 ∧
    (0 : Nat) < LOW_TEMPLATE_THRESHOLD ∧
    checkAndGenerateMorningTemplatesIfNeeded none ⟨true, [], [], [], 0⟩ = false ∧
    getAvailableMorningTemplateCount none ⟨true, [], [], [], 0⟩ = 0 := by
  decide

/-- C3, amended.  The welcome and morning counters match the spec's
used_count < 5 filter, but the warning counter counts every template of
the violation type regardless of used_count; each trigger fires exactly
when its count is below LOW_TEMPLATE_THRESHOLD and the in-memory
isGenerating flag is clear; and that flag is one service-wide boolean, so
while any generation run holds it every pool's trigger is a no-op and a
generateWelcomeTemplates call returns at once without touching any
table. -/
theorem replenishment_trigger_amended (st : TemplateServiceState) (mood : Option MoodType)
    (ty : ViolationType) :
    (checkAndGenerateTemplatesIfNeeded st = true ↔
      st.isGenerating = false ∧ specWelcomeAvailableCount st < LOW_TEMPLATE_THRESHOLD) ∧
    (checkAndGenerateMorningTemplatesIfNeeded mood st = true ↔
      st.isGenerating = false ∧ specMorningAvailableCount mood st < LOW_TEMPLATE_THRESHOLD) ∧
    (checkAndGenerateWarningTemplatesIfNeeded ty st = true ↔
      st.isGenerating = false ∧
        (st.warningTemplates.filter (fun t => decide (t.type = ty))).length <
          LOW_TEMPLATE_THRESHOLD) ∧
    (st.isGenerating = true →
      checkAndGenerateTemplatesIfNeeded st = false ∧
      checkAndGenerateMorningTemplatesIfNeeded mood st = false ∧
      checkAndGenerateWarningTemplatesIfNeeded ty st = false ∧
      ∀ count outcomes, generateWelcomeTemplates count outcomes st = (true, st)) := by
  have hmorning : getAvailableMorningTemplateCount mood st = specMorningAvailableCount mood st := by
    cases mood with
    | none => simp [getAvailableMorningTemplateCount, specMorningAvailableCount]
    | some m => simp [getAvailableMorningTemplateCount, specMorningAvailableCount]
  refine ⟨?_, ?_, ?_, fun hgen => ?_⟩
  · simp [checkAndGenerateTemplatesIfNeeded, getAvailableTemplateCount,
      specWelcomeAvailableCount, Bool.and_eq_true, Bool.not_eq_true']
  · rw [checkAndGenerateMorningTemplatesIfNeeded, hmorning]
    simp [Bool.and_eq_true, Bool.not_eq_true']
  · simp [checkAndGenerateWarningTemplatesIfNeeded, getAvailableWarningTemplateCount,
      Bool.and_eq_true, Bool.not_eq_true']
  · refine ⟨?_, ?_, ?_, fun count outcomes => ?_⟩
    · simp [checkAndGenerateTemplatesIfNeeded, hgen]
    · simp [checkAndGenerateMorningTemplatesIfNeeded, hgen]
    · simp [checkAndGenerateWarningTemplatesIfNeeded, hgen]
    · simp [generateWelcomeTemplates, hgen]

/-- C3, witness for the amended theorem: with the flag held, every
trigger is a no-op and a generation call returns the state unchanged. -/
theorem replenishment_trigger_amended_witness :
    checkAndGenerateTemplatesIfNeeded ⟨true, [], [], [], 0⟩ = false ∧
    checkAndGenerateMorningTemplatesIfNeeded none ⟨true, [], [], [], 0⟩ = false ∧
    checkAndGenerateWarningTemplatesIfNeeded .spam ⟨true, [], [], [], 0⟩ = false ∧
    generateWelcomeTemplates 20 [some ["a"]] ⟨true, [], [], [], 0⟩ =
      (true, ⟨true, [], [], [], 0⟩) := by
  have h := (replenishment_trigger_amended ⟨true, [], [], [], 0⟩ none .spam).2.2.2 rfl
  exact ⟨h.1, h.2.1, h.2.2.1, h.2.2.2 20 [some ["a"]]⟩

/-! ## C8 — empty-pool behavior of the allocators -/

theorem selectLeastUsed_eq_none_iff {α : Type} (key : α → Nat × Option Nat) (rows : List α) :
    selectLeastUsed key rows = none ↔ rows = [] := by
  cases rows with
  | nil => simp [selectLeastUsed]
  | cons x xs => simp [selectLeastUsed]

/-- C8, counterexample.  With no template matching the requested mood,
getMorningMessageTemplate surfaces the thrown pool-empty error to its
caller — there is no fallback one-off generation on this path. -/
theorem morning_fallback_counterexample :
    getMorningMessageTemplate (some .chill) 5
        ⟨false, [], [⟨1, "m", some .motivational, 0, none⟩], [], 9⟩ =
      Except.error "No morning templates available" := by
  rfl

/-- C8, amended.  All three pools surface pool exhaustion to the caller:
the morning allocator fails (with the thrown no-morning-templates error)
exactly when no row matches the requested mood, with no fallback
generation, and the welcome and warning allocators fail exactly when
their matching pool is empty. -/
theorem pool_exhaustion_surfacing_amended (st : TemplateServiceState) (m : MoodType)
    (now : Nat) (ty : ViolationType) (pool : List WelcomeTemplate) :
    (getMorningMessageTemplate (some m) now st =
        Except.error "No morning templates available" ↔
      st.morningMessageTemplates.filter (fun t => decide (t.moodTag = some m)) = []) ∧
    (getMorningMessageTemplate none now st = Except.error "No morning templates available" ↔
      st.morningMessageTemplates = []) ∧
    (allocateWelcome now pool = none ↔ pool = []) ∧
    (getWarningTemplate ty now st = Except.error "No warning templates available" ↔
      st.warningTemplates.filter (fun t => decide (t.type = ty)) = []) := by
  refine ⟨?_, ?_, ?_, ?_⟩
  · rw [← selectLeastUsed_eq_none_iff morningKey]
    rw [getMorningMessageTemplate]
    cases h : getLeastUsedMorningTemplate (some m) st.morningMessageTemplates with
    | none => simp [getLeastUsedMorningTemplate] at h; simp [h]
    | some t => simp [getLeastUsedMorningTemplate] at h; simp [h]
  · rw [← selectLeastUsed_eq_none_iff morningKey]
    rw [getMorningMessageTemplate]
    cases h : getLeastUsedMorningTemplate none st.morningMessageTemplates with
    | none => simp [getLeastUsedMorningTemplate] at h; simp [h]
    | some t => simp [getLeastUsedMorningTemplate] at h; simp [h]
  · rw [← selectLeastUsed_eq_none_iff welcomeKey]
    rw [allocateWelcome]
    cases h : getLeastUsedTemplate pool with
    | none => simp [getLeastUsedTemplate] at h; simp [h]
    | some t => simp [getLeastUsedTemplate] at h; simp [h]
  · rw [← selectLeastUsed_eq_none_iff warningKey]
    rw [getWarningTemplate]
    cases h : getLeastUsedWarningTemplate ty st.warningTemplates with
    | none => simp [getLeastUsedWarningTemplate] at h; simp [h]
    | some t => simp [getLeastUsedWarningTemplate] at h; simp [h]

/-! ## C9 — batch generation partial-failure policy -/

theorem insertWelcomeRows_spec (contents : List String) (st : TemplateServiceState) :
    ∃ rows, (insertWelcomeRows contents st).welcomeTemplates = st.welcomeTemplates ++ rows ∧
      ∀ r ∈ rows, r.usedCount = 0 ∧ r.lastUsedAt = none := by
  refine ⟨contents.enum.map (fun kc => (⟨st.nextId + kc.1, kc.2, 0, none⟩ : WelcomeTemplate)),
    by simp [insertWelcomeRows], ?_⟩
  intro r hr
  obtain ⟨kc, _, rfl⟩ := List.mem_map.mp hr
  exact ⟨rfl, rfl⟩

theorem generateWelcomeLoop_flag (rem : Nat) :
    ∀ i outs st, (generateWelcomeLoop rem i outs st).2.isGenerating = st.isGenerating := by
  induction rem with
  | zero => intro i outs st; rfl
  | succ rem ih =>
    intro i outs st
    rw [generateWelcomeLoop]
    cases h : outs.headD none with
    | some contents => rw [ih]; rfl
    | none =>
      by_cases hi : i = 0
      · simp [hi]
      · simp [hi, ih]

theorem generateWelcomeLoop_extend (rem : Nat) :
    ∀ i outs st, ∃ rows,
      (generateWelcomeLoop rem i outs st).2.welcomeTemplates = st.welcomeTemplates ++ rows ∧
      ∀ r ∈ rows, r.usedCount = 0 ∧ r.lastUsedAt = none := by
  induction rem with
  | zero => intro i outs st; exact ⟨[], by simp [generateWelcomeLoop], by simp⟩
  | succ rem ih =>
    intro i outs st
    rw [generateWelcomeLoop]
    cases h : outs.headD none with
    | some contents =>
      obtain ⟨rows2, hrows2, hmem2⟩ := ih (i + 1) outs.tail (insertWelcomeRows contents st)
      obtain ⟨rows1, hrows1, hmem1⟩ := insertWelcomeRows_spec contents st
      refine ⟨rows1 ++ rows2, ?_, ?_⟩
      · rw [hrows2, hrows1, List.append_assoc]
      · intro r hr
        rcases List.mem_append.mp hr with hr1 | hr2
        · exact hmem1 r hr1
        · exact hmem2 r hr2
    | none =>
      by_cases hi : i = 0
      · exact ⟨[], by simp [hi], by simp⟩
      · obtain ⟨rows, hrows, hmem⟩ := ih (i + 1) outs.tail st
        exact ⟨rows, by simp [hi, hrows], hmem⟩

theorem generateWelcomeLoop_ok_of_pos (rem : Nat) :
    ∀ i outs st, 1 ≤ i → (generateWelcomeLoop rem i outs st).1 = true := by
  induction rem with
  | zero => intro i outs st _; rfl
  | succ rem ih =>
    intro i outs st hi
    rw [generateWelcomeLoop]
    cases h : outs.headD none with
    | some contents => exact ih (i + 1) outs.tail _ (by omega)
    | none =>
      have : ¬ i = 0 := by omega
      simp only [this, if_false]
      exact ih (i + 1) outs.tail st (by omega)

/-- C9.  In generateWelcomeTemplates: the in-progress flag is clear after
every run; a failing first batch fails the whole call, inserting nothing
and still clearing the flag; every inserted row has used_count 0 and NULL
last_used_at, appended after the pre-existing rows, and a failure in a
later batch never fails the call (it is logged and skipped, preserving
earlier batches); and a call made while the flag is held returns at once
leaving the state untouched. -/
theorem batch_partial_failure (count : Nat) (outcomes : List (Option (List String)))
    (st : TemplateServiceState) (h : st.isGenerating = false) :
    (generateWelcomeTemplates count outcomes st).2.isGenerating = false ∧
    (0 < count → outcomes.headD none = none →
      generateWelcomeTemplates count outcomes st = (false, st)) ∧
    (∃ rows, (generateWelcomeTemplates count outcomes st).2.welcomeTemplates =
        st.welcomeTemplates ++ rows ∧ ∀ r ∈ rows, r.usedCount = 0 ∧ r.lastUsedAt = none) ∧
    ((outcomes.headD none).isSome = true →
      (generateWelcomeTemplates count outcomes st).1 = true) ∧
    (∀ st2 : TemplateServiceState, st2.isGenerating = true →
      generateWelcomeTemplates count outcomes st2 = (true, st2)) := by
  refine ⟨?_, ?_, ?_, ?_, ?_⟩
  · simp only [generateWelcomeTemplates, h, if_false, Bool.false_eq_true]
  · intro hcount hfail
    have hfail2 : outcomes.head?.getD none = none := by
      rw [← List.headD_eq_head?]; exact hfail
    obtain ⟨b, hbeq⟩ : ∃ b, (count + BATCH_SIZE - 1) / BATCH_SIZE = b + 1 := by
      refine ⟨(count + BATCH_SIZE - 1) / BATCH_SIZE - 1, ?_⟩
      simp only [BATCH_SIZE]
      omega
    obtain ⟨flag, w, m, wa, n⟩ := st
    simp only at h
    subst h
    simp [generateWelcomeTemplates, hbeq, generateWelcomeLoop, hfail, hfail2]
  · simp only [generateWelcomeTemplates, h, Bool.false_eq_true, if_false]
    exact generateWelcomeLoop_extend _ 0 outcomes _
  · intro hsome
    obtain ⟨contents, hc⟩ := Option.isSome_iff_exists.mp hsome
    simp only [generateWelcomeTemplates, h, Bool.false_eq_true, if_false]
    rcases Nat.eq_zero_or_pos ((count + BATCH_SIZE - 1) / BATCH_SIZE) with hb | hb
    · rw [hb]; rfl
    · obtain ⟨b, hbeq⟩ : ∃ b, (count + BATCH_SIZE - 1) / BATCH_SIZE = b + 1 :=
        ⟨(count + BATCH_SIZE - 1) / BATCH_SIZE - 1, by omega⟩
      rw [hbeq, generateWelcomeLoop, hc]
      exact generateWelcomeLoop_ok_of_pos b 1 outcomes.tail _ (by omega)
  · intro st2 h2
    simp only [generateWelcomeTemplates, h2, if_true]

/-- C9, witness: from a clean state, a failing first batch fails the call
leaving the table empty, while a successful first batch followed by a
failing second succeeds with only the first batch inserted. -/
theorem batch_partial_failure_witness :
    generateWelcomeTemplates 20 [none, some ["y"]] ⟨false, [], [], [], 0⟩ =
      (false, ⟨false, [], [], [], 0⟩) ∧
    (generateWelcomeTemplates 20 [some ["x"], none] ⟨false, [], [], [], 0⟩).1 = true ∧
    (generateWelcomeTemplates 20 [some ["x"], none] ⟨false, [], [], [], 0⟩).2.isGenerating =
      false := by
  have h1 := (batch_partial_failure 20 [none, some ["y"]] ⟨false, [], [], [], 0⟩ rfl).2.1
    (by decide) rfl
  have h2 := batch_partial_failure 20 [some ["x"], none] ⟨false, [], [], [], 0⟩ rfl
  exact ⟨h1, h2.2.2.2.1 rfl, h2.1⟩

/-! ## C6 — spam detection -/

theorem checkSpam_fresh (g u : String) (t : Nat) (r : RedisState)
    (hr : r (spamCacheKey g u) = none) :
    checkSpam g u t r =
      (false, Function.update r (spamCacheKey g u)
        (some ⟨1, some (t + timeWindowSeconds * 1000)⟩)) := by
  simp [checkSpam, cacheIncrement, redisIncr, redisExpire, redisLive, hr,
    Function.update_same, Function.update_idem, timeWindowSeconds, messageLimit]

theorem checkSpam_live (g u : String) (v e t : Nat) (r : RedisState)
    (hr : r (spamCacheKey g u) = some ⟨v, some e⟩) (ht : t < e) (hv : 1 ≤ v) :
    checkSpam g u t r =
      (decide (messageLimit < v + 1),
        Function.update r (spamCacheKey g u) (some ⟨v + 1, some e⟩)) := by
  have hv1 : ¬ (v + 1 = 1) := by omega
  simp [checkSpam, cacheIncrement, redisIncr, redisLive, hr, ht, hv1]

theorem checkSpam_expired (g u : String) (v e t : Nat) (r : RedisState)
    (hr : r (spamCacheKey g u) = some ⟨v, some e⟩) (ht : e ≤ t) :
    checkSpam g u t r =
      (false, Function.update r (spamCacheKey g u)
        (some ⟨1, some (t + timeWindowSeconds * 1000)⟩)) := by
  have hlive : ¬ (t < e) := by omega
  simp [checkSpam, cacheIncrement, redisIncr, redisExpire, redisLive, hr, hlive,
    Function.update_same, Function.update_idem, timeWindowSeconds, messageLimit]

theorem runCheckSpam_cons_fst (g u : String) (t : Nat) (ts : List Nat) (r : RedisState) :
    (runCheckSpam g u (t :: ts) r).1 =
      (checkSpam g u t r).1 :: (runCheckSpam g u ts (checkSpam g u t r).2).1 := rfl

theorem runCheckSpam_cons_snd (g u : String) (t : Nat) (ts : List Nat) (r : RedisState) :
    (runCheckSpam g u (t :: ts) r).2 =
      (runCheckSpam g u ts (checkSpam g u t r).2).2 := rfl

theorem runCheckSpam_live (g u : String) :
    ∀ (ts : List Nat) (v e : Nat) (r : RedisState),
      r (spamCacheKey g u) = some ⟨v, some e⟩ → 1 ≤ v → (∀ x ∈ ts, x < e) →
      (runCheckSpam g u ts r).1 =
        (List.range ts.length).map (fun j => decide (messageLimit < v + j + 1)) ∧
      (runCheckSpam g u ts r).2 (spamCacheKey g u) = some ⟨v + ts.length, some e⟩ := by
  intro ts
  induction ts with
  | nil =>
    intro v e r hr hv hin
    simp [runCheckSpam, hr]
  | cons t ts ih =>
    intro v e r hr hv hin
    have hstep := checkSpam_live g u v e t r hr (hin t (by simp)) hv
    have hs1 : (checkSpam g u t r).1 = decide (messageLimit < v + 1) := by rw [hstep]
    have hs2 : (checkSpam g u t r).2 =
        Function.update r (spamCacheKey g u) (some ⟨v + 1, some e⟩) := by rw [hstep]
    have hkey : (Function.update r (spamCacheKey g u) (some ⟨v + 1, some e⟩))
        (spamCacheKey g u) = some ⟨v + 1, some e⟩ := Function.update_same _ _ _
    have hrec := ih (v + 1) e _ hkey (by omega) (fun x hx => hin x (by simp [hx]))
    refine ⟨?_, ?_⟩
    · rw [runCheckSpam_cons_fst, hs1, hs2, hrec.1]
      simp only [List.length_cons, List.range_succ_eq_map, List.map_cons, List.map_map]
      have harith : ∀ j : Nat, v + 1 + j + 1 = v + (j + 1) + 1 := by omega
      simp [Function.comp, harith]
    · rw [runCheckSpam_cons_snd, hs2, hrec.2]
      have : v + 1 + ts.length = v + (ts.length + 1) := by omega
      simp [this]

theorem runCheckSpam_append (g u : String) :
    ∀ (l1 l2 : List Nat) (r : RedisState),
      runCheckSpam g u (l1 ++ l2) r =
        ((runCheckSpam g u l1 r).1 ++ (runCheckSpam g u l2 (runCheckSpam g u l1 r).2).1,
          (runCheckSpam g u l2 (runCheckSpam g u l1 r).2).2) := by
  intro l1
  induction l1 with
  | nil => intro l2 r; rfl
  | cons t l1 ih =>
    intro l2 r
    simp only [List.cons_append, runCheckSpam, List.append_eq, ih]

/-- C6.  checkSpam increments the per-(guild, user) counter and sets its
expiry only on the first increment of a window: starting from a state
without the key, six messages inside the window produce counts 1..6 with
the expiry pinned at the first message's instant plus the window, and
exactly the 6th is flagged as spam (count 6 > messageLimit 5); while five
messages inside the window followed by a 6th at or after the expiry give
a reset count of 1, and no message of that run is flagged. -/
theorem spam_detection (g u : String) (r : RedisState) (t : Nat) (ts5 ts4 : List Nat)
    (t6 : Nat) (hfresh : r (spamCacheKey g u) = none)
    (hlen5 : ts5.length = 5) (hin5 : ∀ x ∈ ts5, x < t + timeWindowSeconds * 1000)
    (hlen4 : ts4.length = 4) (hin4 : ∀ x ∈ ts4, x < t + timeWindowSeconds * 1000)
    (ht6 : t + timeWindowSeconds * 1000 ≤ t6) :
    (runCheckSpam g u (t :: ts5) r).1 = [false, false, false, false, false, true] ∧
    (runCheckSpam g u (t :: ts5) r).2 (spamCacheKey g u) =
      some ⟨6, some (t + timeWindowSeconds * 1000)⟩ ∧
    (runCheckSpam g u (t :: (ts4 ++ [t6])) r).1 =
      [false, false, false, false, false, false] := by
  have hstep := checkSpam_fresh g u t r hfresh
  have hs1 : (checkSpam g u t r).1 = false := by rw [hstep]
  have hs2 : (checkSpam g u t r).2 = Function.update r (spamCacheKey g u)
      (some ⟨1, some (t + timeWindowSeconds * 1000)⟩) := by rw [hstep]
  have hkey1 : (Function.update r (spamCacheKey g u)
      (some ⟨1, some (t + timeWindowSeconds * 1000)⟩)) (spamCacheKey g u) =
      some ⟨1, some (t + timeWindowSeconds * 1000)⟩ := Function.update_same _ _ _
  have hrun5 := runCheckSpam_live g u ts5 1 (t + timeWindowSeconds * 1000)
    (Function.update r (spamCacheKey g u)
      (some ⟨1, some (t + timeWindowSeconds * 1000)⟩)) hkey1 (by omega) hin5
  have hrun4 := runCheckSpam_live g u ts4 1 (t + timeWindowSeconds * 1000)
    (Function.update r (spamCacheKey g u)
      (some ⟨1, some (t + timeWindowSeconds * 1000)⟩)) hkey1 (by omega) hin4
  refine ⟨?_, ?_, ?_⟩
  · rw [runCheckSpam_cons_fst, hs1, hs2, hrun5.1, hlen5]
    decide
  · rw [runCheckSpam_cons_snd, hs2, hrun5.2, hlen5]
  · rw [runCheckSpam_cons_fst, hs1, hs2, runCheckSpam_append, hrun4.1, hlen4]
    have hS : (runCheckSpam g u ts4 (Function.update r (spamCacheKey g u)
        (some ⟨1, some (t + timeWindowSeconds * 1000)⟩))).2 (spamCacheKey g u) =
        some ⟨5, some (t + timeWindowSeconds * 1000)⟩ := by
      rw [hrun4.2, hlen4]
    have hlast := checkSpam_expired g u 5 (t + timeWindowSeconds * 1000) t6 _ hS ht6
    have hlast1 : (checkSpam g u t6 (runCheckSpam g u ts4 (Function.update r
        (spamCacheKey g u) (some ⟨1, some (t + timeWindowSeconds * 1000)⟩))).2).1 =
        false := by rw [hlast]
    rw [runCheckSpam_cons_fst, hlast1]
    simp [runCheckSpam]
    decide

/-- C6, witness: six messages in the first second are flagged only at the
6th; five quick messages and a 6th at the expiry instant are never
flagged. -/
theorem spam_detection_witness :
    (runCheckSpam "g" "u" [0, 1, 2, 3, 4, 5] (fun _ => none)).1 =
      [false, false, false, false, false, true] ∧
    (runCheckSpam "g" "u" [0, 1, 2, 3, 4, 10000] (fun _ => none)).1 =
      [false, false, false, false, false, false] := by
  have h := spam_detection "g" "u" (fun _ => none) 0 [1, 2, 3, 4, 5] [1, 2, 3, 4] 10000
    rfl (by decide) (by decide) (by decide) (by decide) (by decide)
  exact ⟨h.1, h.2.2⟩

/-! ## C2 — the allocation contract -/

theorem templateKeyLE_refl (a : Nat × Option Nat) : templateKeyLE a a = true := by
  rcases a with ⟨a1, a2⟩
  cases a2 <;> simp [templateKeyLE, pgAscNullsLastLE]

theorem templateKeyLE_of_LT (a b : Nat × Option Nat) (h : templateKeyLT a b = true) :
    templateKeyLE a b = true := by
  rcases a with ⟨a1, a2⟩
  rcases b with ⟨b1, b2⟩
  cases a2 <;> cases b2 <;>
    first
      | (simp_all [templateKeyLE, templateKeyLT, pgAscNullsLastLE, pgAscNullsLastLT]; omega)
      | simp_all [templateKeyLE, templateKeyLT, pgAscNullsLastLE, pgAscNullsLastLT]

theorem templateKeyLE_of_not_LT (a b : Nat × Option Nat) (h : templateKeyLT a b = false) :
    templateKeyLE b a = true := by
  rcases a with ⟨a1, a2⟩
  rcases b with ⟨b1, b2⟩
  cases a2 <;> cases b2 <;>
    simp_all [templateKeyLE, templateKeyLT, pgAscNullsLastLE, pgAscNullsLastLT] <;>
    omega

theorem templateKeyLE_trans (a b c : Nat × Option Nat) (hab : templateKeyLE a b = true)
    (hbc : templateKeyLE b c = true) : templateKeyLE a c = true := by
  rcases a with ⟨a1, a2⟩
  rcases b with ⟨b1, b2⟩
  rcases c with ⟨c1, c2⟩
  cases a2 <;> cases b2 <;> cases c2 <;>
    simp_all [templateKeyLE, pgAscNullsLastLE] <;>
    omega

theorem templateKeyLE_fst_le (a b : Nat × Option Nat) (h : templateKeyLE a b = true) :
    a.1 ≤ b.1 := by
  rcases a with ⟨a1, a2⟩
  rcases b with ⟨b1, b2⟩
  cases a2 <;> cases b2 <;>
    simp_all [templateKeyLE, pgAscNullsLastLE] <;>
    omega

theorem selectLeastUsed_foldl_spec {α : Type} (key : α → Nat × Option Nat) :
    ∀ (xs : List α) (x : α),
      (xs.foldl (fun best y => if templateKeyLT (key y) (key best) then y else best) x) ∈
        x :: xs ∧
      ∀ s ∈ x :: xs,
        templateKeyLE
          (key (xs.foldl (fun best y => if templateKeyLT (key y) (key best) then y else best) x))
          (key s) = true := by
  intro xs
  induction xs with
  | nil =>
    intro x
    refine ⟨by simp, ?_⟩
    intro s hs
    rw [List.mem_singleton.mp hs]
    simp [templateKeyLE_refl]
  | cons y xs ih =>
    intro x
    by_cases hlt : templateKeyLT (key y) (key x) = true
    · have hfold : (y :: xs).foldl
          (fun best z => if templateKeyLT (key z) (key best) then z else best) x =
          xs.foldl (fun best z => if templateKeyLT (key z) (key best) then z else best) y := by
        simp [List.foldl_cons, hlt]
      obtain ⟨hmem, hle⟩ := ih y
      refine ⟨?_, ?_⟩
      · rw [hfold]
        exact List.mem_cons_of_mem x hmem
      · intro s hs
        rw [hfold]
        rcases List.mem_cons.mp hs with h | hs2
        · rw [h]
          exact templateKeyLE_trans _ _ _ (hle y (List.mem_cons_self y xs))
            (templateKeyLE_of_LT _ _ hlt)
        · exact hle s hs2
    · have hlt2 : templateKeyLT (key y) (key x) = false := by
        cases h : templateKeyLT (key y) (key x)
        · rfl
        · exact absurd h hlt
      have hfold : (y :: xs).foldl
          (fun best z => if templateKeyLT (key z) (key best) then z else best) x =
          xs.foldl (fun best z => if templateKeyLT (key z) (key best) then z else best) x := by
        simp [List.foldl_cons, hlt2]
      obtain ⟨hmem, hle⟩ := ih x
      refine ⟨?_, ?_⟩
      · rw [hfold]
        rcases List.mem_cons.mp hmem with h | h
        · exact List.mem_cons.mpr (Or.inl h)
        · exact List.mem_cons_of_mem x (List.mem_cons_of_mem y h)
      · intro s hs
        rw [hfold]
        rcases List.mem_cons.mp hs with h | hs2
        · rw [h]
          exact hle x (List.mem_cons_self x xs)
        · rcases List.mem_cons.mp hs2 with h | hs3
          · rw [h]
            exact templateKeyLE_trans _ _ _ (hle x (List.mem_cons_self x xs))
              (templateKeyLE_of_not_LT _ _ hlt2)
          · exact hle s (List.mem_cons_of_mem x hs3)

theorem selectLeastUsed_spec {α : Type} (key : α → Nat × Option Nat) (rows : List α)
    (t : α) (h : selectLeastUsed key rows = some t) :
    t ∈ rows ∧ ∀ s ∈ rows, templateKeyLE (key t) (key s) = true := by
  cases rows with
  | nil => simp [selectLeastUsed] at h
  | cons x xs =>
    simp only [selectLeastUsed, Option.some.injEq] at h
    obtain ⟨hmem, hle⟩ := selectLeastUsed_foldl_spec key xs x
    exact ⟨h ▸ hmem, h ▸ hle⟩

/-- C2, counterexample.  Two consecutive allocations on a two-template
pool return the same template (a fresh row next to a heavily used one
stays strictly minimal even after its increment), and a used_count tie
with one NULL last_used_at resolves to the non-NULL row — PostgreSQL
sorts NULLs last under ASC — not to the NULL one as the claim's
nulls-first tie-break would require. -/
theorem allocation_contract_counterexample :
    (allocateWelcome 1000 [⟨1, "a", 0, none⟩, ⟨2, "b", 5, some 100⟩]).map
        (fun p => p.1.id) = some 1 ∧
    ((allocateWelcome 1000 [⟨1, "a", 0, none⟩, ⟨2, "b", 5, some 100⟩]).bind
        (fun p => allocateWelcome 2000 p.2)).map (fun p => p.1.id) = some 1 ∧
    (allocateWelcome 1000 [⟨1, "a", 2, none⟩, ⟨2, "b", 2, some 100⟩]).map
        (fun p => p.1.id) = some 2 := by
  decide

/-- C2, amended.  An allocation on a non-empty welcome pool returns a
row minimal for ascending (used_count, last_used_at) with NULLs sorting
last; the table afterwards is the input with exactly that row's
used_count incremented by 1 and last_used_at set to the allocation
instant; no row's used_count ever decreases under allocation or batch
insertion; and two consecutive allocations return different templates
whenever some other template's used_count is at most the first returned
one's — but may return the same template otherwise, even on a
multi-template pool. -/
theorem allocation_contract_amended (pool : List WelcomeTemplate) (now : Nat)
    (t : WelcomeTemplate) (pool2 : List WelcomeTemplate)
    (hpk : ∀ a ∈ pool, ∀ b ∈ pool, a.id = b.id → a = b)
    (halloc : allocateWelcome now pool = some (t, pool2)) :
    t ∈ pool ∧
    (∀ s ∈ pool, templateKeyLE (welcomeKey t) (welcomeKey s) = true) ∧
    pool2 = markTemplateAsUsed t.id now pool ∧
    (∀ r ∈ pool, ∃ r2 ∈ pool2, r2.id = r.id ∧ r.usedCount ≤ r2.usedCount) ∧
    (∀ r2 ∈ pool2, r2.id = t.id → r2.usedCount = t.usedCount + 1 ∧ r2.lastUsedAt = some now) ∧
    (∀ contents st, ∃ rows,
      (insertWelcomeRows contents st).welcomeTemplates = st.welcomeTemplates ++ rows) ∧
    (∀ s ∈ pool, s.id ≠ t.id → s.usedCount ≤ t.usedCount →
      ∀ now2 t2 pool3, allocateWelcome now2 pool2 = some (t2, pool3) → t2.id ≠ t.id) := by
  have hsel : getLeastUsedTemplate pool = some t ∧ pool2 = markTemplateAsUsed t.id now pool := by
    rw [allocateWelcome] at halloc
    cases h : getLeastUsedTemplate pool with
    | none => rw [h] at halloc; simp at halloc
    | some t3 =>
      rw [h] at halloc
      simp only [Option.some.injEq, Prod.mk.injEq] at halloc
      exact ⟨by rw [halloc.1], by rw [← halloc.2, halloc.1]⟩
  obtain ⟨hmin, hpool2⟩ := hsel
  obtain ⟨hmem, hle⟩ := selectLeastUsed_spec welcomeKey pool t hmin
  have hconj5 : ∀ r2 ∈ pool2, r2.id = t.id →
      r2.usedCount = t.usedCount + 1 ∧ r2.lastUsedAt = some now := by
    intro r2 hr2 hid
    rw [hpool2, markTemplateAsUsed] at hr2
    obtain ⟨r, hr, hrEq⟩ := List.mem_map.mp hr2
    by_cases hcase : r.id = t.id
    · have hrt : r = t := hpk r hr t hmem hcase
      rw [← hrEq]
      simp [hcase, hrt]
    · rw [← hrEq] at hid
      simp [hcase] at hid
  refine ⟨hmem, hle, hpool2, ?_, hconj5, ?_, ?_⟩
  · intro r hr
    refine ⟨if r.id = t.id then { r with usedCount := r.usedCount + 1, lastUsedAt := some now }
      else r, ?_, ?_⟩
    · rw [hpool2, markTemplateAsUsed]
      exact List.mem_map.mpr ⟨r, hr, rfl⟩
    · by_cases hid : r.id = t.id
      · simp [hid]
      · simp [hid]
  · intro contents st
    exact ⟨contents.enum.map (fun kc => (⟨st.nextId + kc.1, kc.2, 0, none⟩ : WelcomeTemplate)),
      by simp [insertWelcomeRows]⟩
  · intro s hs hsid hscount now2 t2 pool3 halloc2
    have hsel2 : getLeastUsedTemplate pool2 = some t2 := by
      rw [allocateWelcome] at halloc2
      cases h : getLeastUsedTemplate pool2 with
      | none => rw [h] at halloc2; simp at halloc2
      | some t4 =>
        rw [h] at halloc2
        simp only [Option.some.injEq, Prod.mk.injEq] at halloc2
        rw [halloc2.1]
    obtain ⟨hmem2, hle2⟩ := selectLeastUsed_spec welcomeKey pool2 t2 hsel2
    have hsp2 : s ∈ pool2 := by
      rw [hpool2, markTemplateAsUsed]
      refine List.mem_map.mpr ⟨s, hs, ?_⟩
      simp [hsid]
    intro ht2id
    have ht2count := (hconj5 t2 hmem2 ht2id).1
    have hfst := templateKeyLE_fst_le _ _ (hle2 s hsp2)
    simp only [welcomeKey] at hfst
    omega

/-- C2, witness for the amended theorem: on a pool of two fresh
templates, the allocation returns a member minimal for the order and the
second allocation picks the other template. -/
theorem allocation_contract_amended_witness :
    (⟨1, "a", 0, none⟩ : WelcomeTemplate) ∈
      [(⟨1, "a", 0, none⟩ : WelcomeTemplate), ⟨2, "b", 0, none⟩] ∧
    (⟨2, "b", 0, none⟩ : WelcomeTemplate).id ≠ (⟨1, "a", 0, none⟩ : WelcomeTemplate).id := by
  have h := allocation_contract_amended
    [⟨1, "a", 0, none⟩, ⟨2, "b", 0, none⟩] 1000 ⟨1, "a", 0, none⟩
    [⟨1, "a", 1, some 1000⟩, ⟨2, "b", 0, none⟩] (by decide) (by decide)
  refine ⟨h.1, ?_⟩
  exact h.2.2.2.2.2.2 ⟨2, "b", 0, none⟩ (by decide) (by decide) (by decide) 2000
    ⟨2, "b", 0, none⟩ [⟨1, "a", 1, some 1000⟩, ⟨2, "b", 1, some 2000⟩] (by decide)

/-! ## C4 — the generation retry policy -/

theorem getNextApiKeyAux_hit (now fuel : Nat) (st : GeminiState) (hfuel : fuel ≠ 0)
    (havail : (isKeyAvailableStep now (st.keyUsageWindows st.currentKeyIndex)).1 = true) :
    getNextApiKeyAux now fuel st =
      (some st.currentKeyIndex,
        { st with
          keyUsageWindows := Function.update st.keyUsageWindows st.currentKeyIndex
            (recordKeyUsage now
              (isKeyAvailableStep now (st.keyUsageWindows st.currentKeyIndex)).2),
          currentKeyIndex := (st.currentKeyIndex + 1) % st.numKeys }) := by
  obtain ⟨f, rfl⟩ := Nat.exists_eq_succ_of_ne_zero hfuel
  rw [getNextApiKeyAux]
  simp [havail]

theorem cursor_back (K i : Nat) (hK : 0 < K) (hi : i < K) :
    ((i + 1) % K + K - 1) % K = i := by
  rcases Nat.lt_or_ge (i + 1) K with h | h
  · rw [Nat.mod_eq_of_lt h]
    have h2 : i + 1 + K - 1 = i + K := by omega
    rw [h2, Nat.add_mod_right, Nat.mod_eq_of_lt hi]
  · have hik : i + 1 = K := by omega
    rw [hik, Nat.mod_self]
    have h2 : 0 + K - 1 = i := by omega
    rw [h2, Nat.mod_eq_of_lt hi]

theorem rlBurstState_zero (K now : Nat) : rlBurstState K 0 now = freshGeminiState K := by
  unfold rlBurstState freshGeminiState
  simp only [Nat.zero_mod]
  congr 1

theorem rlBurst_acquire (K i now : Nat) (hK : 0 < K) (hi : i < K) :
    getNextApiKey now (rlBurstState K i now) =
      (some i,
        { rlBurstState K i now with
          keyUsageWindows := Function.update (rlBurstState K i now).keyUsageWindows i
            ⟨[now], 0⟩,
          currentKeyIndex := (i + 1) % K }) := by
  have hcursor : (rlBurstState K i now).currentKeyIndex = i := by
    simp [rlBurstState, Nat.mod_eq_of_lt hi]
  have hwin : (rlBurstState K i now).keyUsageWindows i = ⟨[], 0⟩ := by
    simp [rlBurstState]
  have havail : (isKeyAvailableStep now
      ((rlBurstState K i now).keyUsageWindows (rlBurstState K i now).currentKeyIndex)).1 =
      true := by
    rw [hcursor, hwin]
    simp [isKeyAvailableStep, cleanOldTimestamps, MAX_REQUESTS_PER_MINUTE]
  have hK2 : (rlBurstState K i now).numKeys = K := rfl
  rw [getNextApiKey, getNextApiKeyAux_hit now _ _ (by omega) havail]
  rw [hcursor, hwin]
  have hrec : recordKeyUsage now (isKeyAvailableStep now (⟨[], 0⟩ : KeyUsageWindow)).2 =
      ⟨[now], 0⟩ := by
    simp [isKeyAvailableStep, recordKeyUsage, cleanOldTimestamps]
  rw [hrec, hK2]
  rfl

theorem rl_step_state (K i now : Nat) (hi : i < K) :
    markKeyAsRateLimited now i
      ⟨K, (i + 1) % K,
        Function.update (rlBurstState K i now).keyUsageWindows i ⟨[now], 0⟩⟩ =
      rlBurstState K (i + 1) now := by
  unfold markKeyAsRateLimited rlBurstState
  congr 1
  funext j
  by_cases hj : j = i
  · subst hj
    simp [Function.update_same]
  · simp only [Function.update_noteq hj]
    have h1 : (j < i + 1) = (j < i) := by
      apply propext
      omega
    simp [h1]

theorem generateAux_attempts_le (now : Nat) :
    ∀ (fuel : Nat) (outcomes : List UpstreamOutcome) (le : Option GenError) (st : GeminiState),
      (generateAux now fuel outcomes le st).attempts ≤ fuel := by
  intro fuel
  induction fuel with
  | zero => intro outcomes le st; simp [generateAux]
  | succ fuel ih =>
    intro outcomes le st
    rw [generateAux]
    rcases hk : getNextApiKey now st with ⟨k, st2⟩
    cases k with
    | none => simp
    | some i =>
      cases outcomes with
      | nil => simp
      | cons o rest =>
        cases o with
        | ok txt => simp
        | rateLimit =>
          simp only []
          have := ih rest (some .rateLimited)
            (markKeyAsRateLimited now
              ((st2.currentKeyIndex + st2.numKeys - 1) % st2.numKeys) st2)
          omega
        | fatal => simp

theorem generate_fatal_step (now : Nat) (rest : List UpstreamOutcome) (st : GeminiState)
    (hK : 0 < st.numKeys) (hacq : (getNextApiKey now st).1.isSome = true) :
    (generate now (UpstreamOutcome.fatal :: rest) st).result = .error .fatalUpstream ∧
    (generate now (UpstreamOutcome.fatal :: rest) st).attempts = 1 := by
  obtain ⟨n, hn⟩ := Nat.exists_eq_succ_of_ne_zero (Nat.pos_iff_ne_zero.mp hK)
  rw [generate, hn, generateAux]
  rcases hk : getNextApiKey now st with ⟨k, st2⟩
  rw [hk] at hacq
  obtain ⟨i, hi⟩ := Option.isSome_iff_exists.mp hacq
  simp only at hi
  rw [hi]
  exact ⟨rfl, rfl⟩

theorem generate_ok_step (now : Nat) (txt : String) (rest : List UpstreamOutcome)
    (st : GeminiState) (hK : 0 < st.numKeys)
    (hacq : (getNextApiKey now st).1.isSome = true) :
    (generate now (UpstreamOutcome.ok txt :: rest) st).result = .ok txt ∧
    (generate now (UpstreamOutcome.ok txt :: rest) st).attempts = 1 := by
  obtain ⟨n, hn⟩ := Nat.exists_eq_succ_of_ne_zero (Nat.pos_iff_ne_zero.mp hK)
  rw [generate, hn, generateAux]
  rcases hk : getNextApiKey now st with ⟨k, st2⟩
  rw [hk] at hacq
  obtain ⟨i, hi⟩ := Option.isSome_iff_exists.mp hacq
  simp only at hi
  rw [hi]
  exact ⟨rfl, rfl⟩

theorem generateAux_rl_run (K now : Nat) (hK : 0 < K) :
    ∀ (d i : Nat) (le : Option GenError), i + d = K → 1 ≤ d →
      generateAux now d (List.replicate d UpstreamOutcome.rateLimit) le
          (rlBurstState K i now) =
        ⟨.error .rateLimited, d, rlBurstState K K now⟩ := by
  intro d
  induction d with
  | zero => intro i le h h1; omega
  | succ d ih =>
    intro i le hiK _
    have hi : i < K := by omega
    rw [List.replicate_succ, generateAux, rlBurst_acquire K i now hK hi]
    simp only [show (rlBurstState K i now).numKeys = K from rfl]
    have hcursor2 : (((i + 1) % K) + K - 1) % K = i := cursor_back K i hK hi
    rw [hcursor2, rl_step_state K i now hi]
    rcases Nat.eq_zero_or_pos d with hd | hd
    · subst hd
      have hiK2 : i + 1 = K := by omega
      rw [hiK2]
      rfl
    · rw [ih (i + 1) (some .rateLimited) (by omega) hd]

/-- C4, counterexample.  With five configured credentials and every
upstream call answering with a rate-limit error, one generate call issues
five upstream attempts — the retry budget is the credential-pool size,
not MAX_RETRIES = 3 — with no backoff anywhere, and surfaces the last
rate-limit error. -/
theorem generation_retry_counterexample :
    (generate 0 (List.replicate 5 UpstreamOutcome.rateLimit) (freshGeminiState 5)).attempts =
      5 ∧
    ¬ ((generate 0 (List.replicate 5 UpstreamOutcome.rateLimit)
        (freshGeminiState 5)).attempts ≤ 3) ∧
    (generate 0 (List.replicate 5 UpstreamOutcome.rateLimit) (freshGeminiState 5)).result =
      .error .rateLimited := by
  refine ⟨by decide, by decide, ?_⟩
  rfl

/-- C4, amended.  generate makes up to K attempts where K is the number
of configured credentials, with no delay between attempts; an attempt
failing with a confirmed rate-limit signal marks the just-used credential
exhausted for 60 s and proceeds to the next attempt, consuming one
attempt of the budget; any other upstream error propagates at once after
a single attempt, and a normal response returns at once; and a run whose
every attempt is rate-limited stops after exactly K attempts, surfacing
the last recorded (rate-limit) error with every credential left on
cooldown. -/
theorem generation_retry_policy_amended :
    (∀ (now : Nat) (outcomes : List UpstreamOutcome) (st : GeminiState),
      (generate now outcomes st).attempts ≤ st.numKeys) ∧
    (∀ (now : Nat) (rest : List UpstreamOutcome) (st : GeminiState), 0 < st.numKeys →
      (getNextApiKey now st).1.isSome = true →
      (generate now (UpstreamOutcome.fatal :: rest) st).result = .error .fatalUpstream ∧
      (generate now (UpstreamOutcome.fatal :: rest) st).attempts = 1) ∧
    (∀ (now : Nat) (txt : String) (rest : List UpstreamOutcome) (st : GeminiState),
      0 < st.numKeys → (getNextApiKey now st).1.isSome = true →
      (generate now (UpstreamOutcome.ok txt :: rest) st).result = .ok txt ∧
      (generate now (UpstreamOutcome.ok txt :: rest) st).attempts = 1) ∧
    (∀ (K now : Nat), 0 < K →
      (generate now (List.replicate K UpstreamOutcome.rateLimit)
          (freshGeminiState K)).result = .error .rateLimited ∧
      (generate now (List.replicate K UpstreamOutcome.rateLimit)
          (freshGeminiState K)).attempts = K ∧
      ∀ j < K, ((generate now (List.replicate K UpstreamOutcome.rateLimit)
          (freshGeminiState K)).state.keyUsageWindows j).rateLimitedUntil =
        now + RATE_LIMIT_DURATION_MS) := by
  refine ⟨?_, ?_, ?_, ?_⟩
  · intro now outcomes st
    exact generateAux_attempts_le now st.numKeys outcomes none st
  · intro now rest st hK hacq
    exact generate_fatal_step now rest st hK hacq
  · intro now txt rest st hK hacq
    exact generate_ok_step now txt rest st hK hacq
  · intro K now hK
    have hrun : generate now (List.replicate K UpstreamOutcome.rateLimit)
        (freshGeminiState K) = ⟨.error .rateLimited, K, rlBurstState K K now⟩ := by
      rw [generate, ← rlBurstState_zero K now]
      have hnk : (rlBurstState K 0 now).numKeys = K := rfl
      rw [hnk]
      exact generateAux_rl_run K now hK K 0 none (by omega) (by omega)
    rw [hrun]
    refine ⟨rfl, rfl, ?_⟩
    intro j hj
    simp [rlBurstState, hj]

/-- C4, witness for the amended theorem at two fresh credentials. -/
theorem generation_retry_policy_amended_witness :
    (generate 7 [UpstreamOutcome.ok "hi"] (freshGeminiState 2)).attempts ≤ 2 ∧
    (generate 7 [UpstreamOutcome.fatal] (freshGeminiState 2)).result =
      .error .fatalUpstream ∧
    (generate 7 [UpstreamOutcome.ok "hi"] (freshGeminiState 2)).result = .ok "hi" ∧
    (generate 7 (List.replicate 2 UpstreamOutcome.rateLimit)
      (freshGeminiState 2)).attempts = 2 := by
  have h := generation_retry_policy_amended
  refine ⟨h.1 7 [UpstreamOutcome.ok "hi"] (freshGeminiState 2), ?_, ?_, ?_⟩
  · exact (h.2.1 7 [] (freshGeminiState 2) (by decide) (by rfl)).1
  · exact (h.2.2.1 7 "hi" [] (freshGeminiState 2) (by decide) (by rfl)).1
  · exact (h.2.2.2 2 7 (by decide)).2.1

/-! ## C5 — credential exhaustion and recovery -/

theorem clean_eq_self (now : Nat) (w : KeyUsageWindow)
    (h : ∀ x ∈ w.timestamps, now < x + RATE_LIMIT_DURATION_MS) :
    cleanOldTimestamps now w = w := by
  unfold cleanOldTimestamps
  have hfil : w.timestamps.filter (fun ts => decide (now < ts + RATE_LIMIT_DURATION_MS)) =
      w.timestamps :=
    List.filter_eq_self.mpr (fun a ha => decide_eq_true (h a ha))
  rw [hfil]

theorem clean_clean (now : Nat) (w : KeyUsageWindow) :
    cleanOldTimestamps now (cleanOldTimestamps now w) = cleanOldTimestamps now w := by
  apply clean_eq_self
  intro x hx
  have := List.mem_filter.mp hx
  exact of_decide_eq_true this.2

theorem isKeyAvailableStep_idem (now : Nat) (w : KeyUsageWindow) :
    isKeyAvailableStep now (isKeyAvailableStep now w).2 = isKeyAvailableStep now w := by
  unfold isKeyAvailableStep
  by_cases hcd : now < w.rateLimitedUntil
  · simp [hcd]
  · have hrl : (cleanOldTimestamps now w).rateLimitedUntil = w.rateLimitedUntil := rfl
    simp only [hcd, if_false, if_neg hcd]
    rw [if_neg (by rw [hrl]; exact hcd), clean_clean]

theorem rrCount_succ (K m j : Nat) (hK : 0 < K) (hj : j < K) :
    rrCount K (m + 1) j = rrCount K m j + if j = m % K then 1 else 0 := by
  have hmlt : m % K < K := Nat.mod_lt m hK
  have hdm : K * (m / K) + m % K = m := Nat.div_add_mod m K
  rcases Nat.lt_or_ge (m % K + 1) K with hcase | hcase
  · have h1 : m + 1 = (m % K + 1) + (m / K) * K := by
      rw [Nat.mul_comm]
      omega
    have hmod2 : (m + 1) % K = m % K + 1 := by
      rw [h1, Nat.add_mul_mod_self_right, Nat.mod_eq_of_lt hcase]
    have hdiv2 : (m + 1) / K = m / K := by
      rw [h1, Nat.add_mul_div_right _ _ hK, Nat.div_eq_of_lt hcase]
      omega
    unfold rrCount
    rw [hmod2, hdiv2]
    split_ifs <;> omega
  · have hdm2 : m / K * K + m % K = m := by
      rw [Nat.mul_comm]
      exact hdm
    have h1 : m + 1 = (m / K + 1) * K := by
      rw [Nat.succ_mul]
      omega
    have hmod2 : (m + 1) % K = 0 := by rw [h1, Nat.mul_mod_left]
    have hdiv2 : (m + 1) / K = m / K + 1 := by rw [h1, Nat.mul_div_cancel _ hK]
    unfold rrCount
    rw [hmod2, hdiv2]
    split_ifs <;> omega

theorem burst_step (K m lo hi t : Nat) (st : GeminiState) (hK : 0 < K)
    (hm : m < MAX_REQUESTS_PER_MINUTE * K) (inv : BurstInv K m lo hi st)
    (hlo : lo ≤ t) (hthi : t ≤ hi) (hwin : hi < lo + RATE_LIMIT_DURATION_MS) :
    (getNextApiKey t st).1 = some (m % K) ∧
    BurstInv K (m + 1) lo hi (getNextApiKey t st).2 := by
  have hmlt : m % K < K := Nat.mod_lt m hK
  have hclean : cleanOldTimestamps t (st.keyUsageWindows (m % K)) =
      st.keyUsageWindows (m % K) := by
    apply clean_eq_self
    intro x hx
    have hb := inv.mem (m % K) hmlt x hx
    omega
  have hcd : (st.keyUsageWindows (m % K)).rateLimitedUntil = 0 := inv.cooldown _ hmlt
  have hlen : (st.keyUsageWindows (m % K)).timestamps.length = m / K := by
    rw [inv.len _ hmlt]
    simp [rrCount]
  have hstep : isKeyAvailableStep t (st.keyUsageWindows (m % K)) =
      (true, st.keyUsageWindows (m % K)) := by
    unfold isKeyAvailableStep
    rw [if_neg (by omega)]
    simp only [hclean, hlen]
    have hq : m / K < MAX_REQUESTS_PER_MINUTE := by
      rw [Nat.div_lt_iff_lt_mul hK]
      omega
    simp [hq]
  have havail : (isKeyAvailableStep t (st.keyUsageWindows st.currentKeyIndex)).1 = true := by
    rw [inv.cursor, hstep]
  have hhit := getNextApiKeyAux_hit t st.numKeys st (by rw [inv.nk]; omega) havail
  have hrec : recordKeyUsage t (isKeyAvailableStep t
      (st.keyUsageWindows (m % K))).2 =
      ⟨(st.keyUsageWindows (m % K)).timestamps ++ [t],
        (st.keyUsageWindows (m % K)).rateLimitedUntil⟩ := by
    rw [hstep]
    unfold recordKeyUsage
    rw [hclean]
  have hfst : (getNextApiKey t st).1 = some (m % K) := by
    rw [getNextApiKey, hhit, inv.cursor]
  have hsnd : (getNextApiKey t st).2 =
      ⟨st.numKeys, (m % K + 1) % st.numKeys,
        Function.update st.keyUsageWindows (m % K)
          ⟨(st.keyUsageWindows (m % K)).timestamps ++ [t],
            (st.keyUsageWindows (m % K)).rateLimitedUntil⟩⟩ := by
    rw [getNextApiKey, hhit]
    dsimp only
    rw [inv.cursor, hrec]
  refine ⟨hfst, ?_⟩
  rw [hsnd]
  refine ⟨inv.nk, ?_, ?_, ?_, ?_⟩
  · show (m % K + 1) % st.numKeys = (m + 1) % K
    rw [inv.nk]
    exact (Nat.mod_modEq m K).add_right 1
  · intro j hj
    show (Function.update st.keyUsageWindows (m % K)
      (⟨(st.keyUsageWindows (m % K)).timestamps ++ [t],
        (st.keyUsageWindows (m % K)).rateLimitedUntil⟩ : KeyUsageWindow) j).timestamps.length =
      rrCount K (m + 1) j
    rw [rrCount_succ K m j hK hj]
    by_cases hje : j = m % K
    · subst hje
      rw [Function.update_same]
      simp [inv.len _ hj]
    · rw [Function.update_noteq hje, inv.len _ hj]
      simp [hje]
  · intro j hj x hx
    dsimp only at hx
    by_cases hje : j = m % K
    · subst hje
      rw [Function.update_same] at hx
      simp only [List.mem_append, List.mem_singleton] at hx
      rcases hx with hx | rfl
      · exact inv.mem _ hj x hx
      · exact ⟨hlo, hthi⟩
    · rw [Function.update_noteq hje] at hx
      exact inv.mem _ hj x hx
  · intro j hj
    dsimp only
    by_cases hje : j = m % K
    · subst hje
      rw [Function.update_same]
      exact hcd
    · rw [Function.update_noteq hje]
      exact inv.cooldown _ hj

theorem acquireAll_burst (K lo hi : Nat) (hK : 0 < K)
    (hwin : hi < lo + RATE_LIMIT_DURATION_MS) :
    ∀ (ts : List Nat) (m : Nat) (st : GeminiState), BurstInv K m lo hi st →
      (∀ x ∈ ts, lo ≤ x ∧ x ≤ hi) → m + ts.length ≤ MAX_REQUESTS_PER_MINUTE * K →
      ∃ st2, acquireAll ts st = some st2 ∧ BurstInv K (m + ts.length) lo hi st2 := by
  intro ts
  induction ts with
  | nil =>
    intro m st inv hmem hlen
    exact ⟨st, rfl, by simpa using inv⟩
  | cons t ts ih =>
    intro m st inv hmem hlen
    have hm : m < MAX_REQUESTS_PER_MINUTE * K := by
      have := hlen
      simp only [List.length_cons] at this
      omega
    obtain ⟨hfst, hinv2⟩ := burst_step K m lo hi t st hK hm inv
      (hmem t (by simp)).1 (hmem t (by simp)).2 hwin
    rcases hk : getNextApiKey t st with ⟨k, st2⟩
    rw [hk] at hfst hinv2
    simp only at hfst hinv2
    rw [acquireAll, hk, hfst]
    obtain ⟨st3, hst3, hinv3⟩ := ih (m + 1) st2 hinv2
      (fun x hx => hmem x (by simp [hx]))
      (by simp only [List.length_cons] at hlen; omega)
    refine ⟨st3, hst3, ?_⟩
    have harith : m + 1 + ts.length = m + (ts.length + 1) := by omega
    rw [harith] at hinv3
    simpa using hinv3

theorem getNextApiKeyAux_none_of_unavail (now : Nat) :
    ∀ (fuel : Nat) (st : GeminiState), st.currentKeyIndex < st.numKeys →
      (∀ j < st.numKeys, (isKeyAvailableStep now (st.keyUsageWindows j)).1 = false) →
      (getNextApiKeyAux now fuel st).1 = none := by
  intro fuel
  induction fuel with
  | zero => intro st hcur hall; rfl
  | succ fuel ih =>
    intro st hcur hall
    rw [getNextApiKeyAux]
    have hav := hall _ hcur
    simp only [hav, Bool.false_eq_true, if_false]
    apply ih
    · show (st.currentKeyIndex + 1) % st.numKeys < st.numKeys
      exact Nat.mod_lt _ (by omega)
    · intro j hj
      show (isKeyAvailableStep now ((Function.update st.keyUsageWindows st.currentKeyIndex
        (isKeyAvailableStep now (st.keyUsageWindows st.currentKeyIndex)).2) j)).1 = false
      by_cases hje : j = st.currentKeyIndex
      · subst hje
        rw [Function.update_same, isKeyAvailableStep_idem]
        exact hall _ hj
      · rw [Function.update_noteq hje]
        exact hall _ hj

/-- C5.  For a credential pool of size K with per-window capacity
MAX_REQUESTS_PER_MINUTE = 15 per 60 s: from the fresh state, any 15·K
acquisitions at instants inside one window all succeed; afterwards every
further acquire inside the window fails with the all-keys-exhausted
error (the round-robin pass visits at most K keys by construction); and
an acquire after the whole window has elapsed — timestamps pruned to the
last 60 s — succeeds again, no credential being under a manual
cooldown. -/
theorem credential_exhaustion_and_recovery (K lo hi tFail tOk : Nat) (times : List Nat)
    (hK : 0 < K) (hlen : times.length = MAX_REQUESTS_PER_MINUTE * K)
    (hmem : ∀ x ∈ times, lo ≤ x ∧ x ≤ hi)
    (hwin : hi < lo + RATE_LIMIT_DURATION_MS)
    (hFail : tFail < lo + RATE_LIMIT_DURATION_MS)
    (hOk : hi + RATE_LIMIT_DURATION_MS ≤ tOk) :
    ∃ stF, acquireAll times (freshGeminiState K) = some stF ∧
      (getNextApiKey tFail stF).1 = none ∧
      (getNextApiKey tOk stF).1.isSome = true := by
  have hinv0 : BurstInv K 0 lo hi (freshGeminiState K) := by
    refine ⟨rfl, by simp [freshGeminiState], ?_, ?_, ?_⟩
    · intro j hj
      simp [freshGeminiState, rrCount]
    · intro j hj x hx
      simp [freshGeminiState] at hx
    · intro j hj
      rfl
  obtain ⟨stF, hacq, hinvF0⟩ := acquireAll_burst K lo hi hK hwin times 0
    (freshGeminiState K) hinv0 hmem (by omega)
  have hinvF : BurstInv K (MAX_REQUESTS_PER_MINUTE * K) lo hi stF := by
    rwa [Nat.zero_add, hlen] at hinvF0
  have hcurF : stF.currentKeyIndex = 0 := by
    rw [hinvF.cursor, Nat.mul_mod_left]
  have hlenF : ∀ j < K, (stF.keyUsageWindows j).timestamps.length =
      MAX_REQUESTS_PER_MINUTE := by
    intro j hj
    rw [hinvF.len _ hj]
    unfold rrCount
    rw [Nat.mul_mod_left, Nat.mul_div_cancel _ hK]
    simp
  refine ⟨stF, hacq, ?_, ?_⟩
  · rw [getNextApiKey]
    apply getNextApiKeyAux_none_of_unavail
    · rw [hcurF, hinvF.nk]
      omega
    · intro j hj
      rw [hinvF.nk] at hj
      have hclean : cleanOldTimestamps tFail (stF.keyUsageWindows j) =
          stF.keyUsageWindows j := by
        apply clean_eq_self
        intro x hx
        have := hinvF.mem _ hj x hx
        omega
      unfold isKeyAvailableStep
      rw [if_neg (by rw [hinvF.cooldown _ hj]; omega)]
      simp only [hclean, hlenF _ hj]
      simp
  · have hdrop : (stF.keyUsageWindows 0).timestamps.filter
        (fun ts => decide (tOk < ts + RATE_LIMIT_DURATION_MS)) = [] := by
      rw [List.filter_eq_nil_iff]
      intro x hx
      have := hinvF.mem 0 hK x hx
      simp only [decide_eq_true_eq]
      omega
    have havailOk : (isKeyAvailableStep tOk
        (stF.keyUsageWindows stF.currentKeyIndex)).1 = true := by
      rw [hcurF]
      unfold isKeyAvailableStep
      rw [if_neg (by rw [hinvF.cooldown 0 hK]; omega)]
      unfold cleanOldTimestamps
      simp [hdrop, MAX_REQUESTS_PER_MINUTE]
    rw [getNextApiKey, getNextApiKeyAux_hit tOk stF.numKeys stF
      (by rw [hinvF.nk]; omega) havailOk]
    rfl

/-- C5, witness: one credential, 15 acquisitions at one instant; the 16th
inside the window fails, and an acquisition a full window later
succeeds. -/
theorem credential_exhaustion_and_recovery_witness :
    ∃ stF, acquireAll (List.replicate 15 1000) (freshGeminiState 1) = some stF ∧
      (getNextApiKey 1500 stF).1 = none ∧
      (getNextApiKey 61000 stF).1.isSome = true := by
  exact credential_exhaustion_and_recovery 1 1000 1000 1500 61000
    (List.replicate 15 1000) (by decide) (by decide) (by decide) (by decide)
    (by decide) (by decide)
